import Mathlib

/-!
Verification of the time-passed date widget (src/src/App.tsx).

The application state is a calendar date plus an input string; its logic
surface consists of

* `parseFlexibleDate` — try an ordered list of date-format patterns
  (via the date library's `parse` with the Romanian locale) and return
  the first valid result;
* the years/months/days delta computation (App.tsx lines 95-108), built
  from the date library's `differenceInYears` / `differenceInMonths` /
  `differenceInDays` / `differenceInWeeks` and the JS `Date` mutators
  `setFullYear` / `setMonth`;
* the week window `weekStart` / `weekDays` (App.tsx lines 83-89).

Dates are modelled as calendar dates normalized to midnight (the spec's
data model): a `YMD` record of year/month/day integers, or, where only
day arithmetic happens (the week window), as an integer epoch-day count
(a JS `Date` at local midnight is exactly its day count; `setDate
(getDate () + i)` is day-count addition).  Strings manipulated by the
parser are modelled as `List Char`.  All definitions are translated from
the source of App.tsx, the date library (v2/v3 semantics, which agree on
every function used here), and the ECMAScript `Date` specification.
-/

set_option maxRecDepth 20000

/-! ## Calendar basics -/

/-- Calendar date: year, month (1-12), day of month.  A JS `Date` at
local midnight, viewed through `getFullYear` / `getMonth` (+1) /
`getDate`. -/
structure YMD where
  year : ℤ
  month : ℤ
  day : ℤ
deriving DecidableEq, Repr

/-- Gregorian leap-year rule, as implemented by JS `Date` arithmetic. -/
def isLeapYear (y : ℤ) : Bool :=
  (y % 4 == 0 && y % 100 != 0) || (y % 400 == 0)

/-- Days in a month of the proleptic Gregorian calendar (month 1-12). -/
def daysInMonth (y m : ℤ) : ℤ :=
  if m = 2 then (if isLeapYear y then 29 else 28)
  else if m = 4 ∨ m = 6 ∨ m = 9 ∨ m = 11 then 30
  else 31

/-- A real calendar date (AD): positive year, month in range, day in
range for that month. -/
def ValidDate (y m d : ℤ) : Prop :=
  1 ≤ y ∧ 1 ≤ m ∧ m ≤ 12 ∧ 1 ≤ d ∧ d ≤ daysInMonth y m

instance (y m d : ℤ) : Decidable (ValidDate y m d) := by
  unfold ValidDate; infer_instance

/-- Epoch day count of a civil date (0 = 1970-01-01), the standard
days-from-civil algorithm.  A JS `Date` at local midnight holds exactly
this many days (times 86400000 ms) as its time value. -/
def daysFromCivil (y m d : ℤ) : ℤ :=
  let y2 := if m ≤ 2 then y - 1 else y
  let era := Int.fdiv y2 400
  let yoe := y2 - era * 400
  let mp := (m + 9) % 12
  let doy := Int.fdiv (153 * mp + 2) 5 + d - 1
  let doe := yoe * 365 + Int.fdiv yoe 4 - Int.fdiv yoe 100 + doy
  era * 146097 + doe - 719468

/-- Epoch day count of a `YMD`. -/
def toEpochDay (a : YMD) : ℤ := daysFromCivil a.year a.month a.day

/-- The date library's `compareAsc`: sign of the time-value difference. -/
def compareAsc (a b : YMD) : ℤ := Int.sign (toEpochDay a - toEpochDay b)

/-- Normalize a year/month/day triple whose day may exceed the month
length (by at most one month), as JS `Date` field setters do: the
overflow rolls into the following month.  E.g. Feb 31 becomes Mar 2 or
Mar 3. -/
def normOverflowDay (y m d : ℤ) : YMD :=
  if d ≤ daysInMonth y m then ⟨y, m, d⟩
  else if 12 ≤ m then ⟨y + 1, 1, d - daysInMonth y m⟩
  else ⟨y, m + 1, d - daysInMonth y m⟩

/-- JS `date.setFullYear (newY)`: keep month and day-of-month, rolling
an out-of-range day (Feb 29 in a non-leap year) into the next month. -/
def jsSetFullYear (newY : ℤ) (a : YMD) : YMD :=
  normOverflowDay newY a.month a.day

/-- JS `date.setMonth (newM0)` with `newM0` a 0-based month index that
may lie outside 0-11: the year absorbs the quotient, and an out-of-range
day-of-month rolls forward. -/
def jsSetMonth (newM0 : ℤ) (a : YMD) : YMD :=
  normOverflowDay (a.year + Int.fdiv newM0 12) ((newM0 % 12) + 1) a.day

/-- JS `date.setDate (newD)`: replace the day-of-month, rolling an
overflow into the next month. -/
def jsSetDate (newD : ℤ) (a : YMD) : YMD :=
  normOverflowDay a.year a.month newD

/-! ## The date library's difference functions (date-fns semantics)

All dates in the model are at midnight, so `differenceInDays` reduces to
the calendar-day difference; the years and months functions are the
library's algorithms verbatim. -/

/-- date-fns `differenceInCalendarYears`. -/
def differenceInCalendarYears (l r : YMD) : ℤ := l.year - r.year

/-- date-fns `differenceInCalendarMonths`. -/
def differenceInCalendarMonths (l r : YMD) : ℤ :=
  (l.year - r.year) * 12 + (l.month - r.month)

/-- date-fns `isLastDayOfMonth`. -/
def isLastDayOfMonth (a : YMD) : Bool :=
  a.day == daysInMonth a.year a.month

/-- date-fns `differenceInYears`: the calendar-year difference, minus
one when the final year is not complete, decided by comparing both
dates moved into the common leap year 1584. -/
def differenceInYears (l r : YMD) : ℤ :=
  let sign := compareAsc l r
  let difference := |differenceInCalendarYears l r|
  let l2 := jsSetFullYear 1584 l
  let r2 := jsSetFullYear 1584 r
  let lastYearNotFull : Bool := compareAsc l2 r2 == -sign
  sign * (difference - (if lastYearNotFull then 1 else 0))

/-- date-fns `differenceInMonths`: the calendar-month difference, with
the end-of-February widening (`setDate 30`), the `setMonth` step back,
and the full-calendar-month special case, exactly as in the library. -/
def differenceInMonths (l r : YMD) : ℤ :=
  let sign := compareAsc l r
  let difference := |differenceInCalendarMonths l r|
  if difference < 1 then 0
  else
    let lw := if l.month = 2 ∧ 27 < l.day then jsSetDate 30 l else l
    let lw2 := jsSetMonth ((lw.month - 1) - sign * difference) lw
    let lastMonthNotFull : Bool :=
      if isLastDayOfMonth l ∧ difference = 1 ∧ compareAsc l r = 1 then false
      else compareAsc lw2 r == -sign
    sign * (difference - (if lastMonthNotFull then 1 else 0))

/-- date-fns `differenceInDays` for midnight-normalized dates: the
epoch-day difference. -/
def differenceInDays (l r : YMD) : ℤ := toEpochDay l - toEpochDay r

/-- date-fns `differenceInWeeks`: days divided by 7, rounded toward
zero (the default `trunc` rounding). -/
def differenceInWeeks (l r : YMD) : ℤ := Int.tdiv (differenceInDays l r) 7

/-! ## The delta computation of App.tsx lines 95-108 -/

/-- All values computed by the years/months/days block of `App`,
including the two intermediate mutated dates. -/
structure DeltaResult where
  years : ℤ
  remainingAfterYears : YMD
  months : ℤ
  remainingAfterMonths : YMD
  days : ℤ
  weeks : ℤ
  totalDays : ℤ
deriving DecidableEq, Repr

/-- The delta computation of App.tsx lines 95-108, verbatim:
`years = differenceInYears (today, selectedDate)`;
`remainingAfterYears = clone of selectedDate with setFullYear (year + years)`;
`months = differenceInMonths (today, remainingAfterYears)`;
`remainingAfterMonths = clone with setMonth (month + months)`;
`days = differenceInDays (today, remainingAfterMonths)`;
plus the raw week and day totals. -/
def computeDelta (selectedDate today : YMD) : DeltaResult :=
  let years := differenceInYears today selectedDate
  let remainingAfterYears := jsSetFullYear (selectedDate.year + years) selectedDate
  let months := differenceInMonths today remainingAfterYears
  let remainingAfterMonths :=
    jsSetMonth ((remainingAfterYears.month - 1) + months) remainingAfterYears
  let days := differenceInDays today remainingAfterMonths
  ⟨years, remainingAfterYears, months, remainingAfterMonths, days,
    differenceInWeeks today selectedDate, differenceInDays today selectedDate⟩

/-! ## Week window (App.tsx lines 83-89)

Here a date is its epoch day count: `startOfWeek` and `setDate (getDate
() + i)` only ever add or subtract whole days. -/

/-- JS `getDay`: day of week, 0 = Sunday.  Epoch day 0 (1970-01-01) was
a Thursday. -/
def getDayOfWeek (t : ℤ) : ℤ := (t + 4) % 7

/-- date-fns `startOfWeek` with `weekStartsOn = 1`:
`diff = (day < weekStartsOn ? 7 : 0) + day - weekStartsOn`, subtracted
from the date. -/
def startOfWeekMonday (t : ℤ) : ℤ :=
  let day := getDayOfWeek t
  let diff := (if day < 1 then 7 else 0) + day - 1
  t - diff

/-- The `weekDays` array of App.tsx lines 85-89: seven clones of
`weekStart`, the i-th advanced by `setDate (getDate () + i)`. -/
def weekDays (t : ℤ) : List ℤ :=
  (List.range 7).map (fun i => startOfWeekMonday t + i)

/-! ## The flexible date parser (App.tsx lines 36-55)

`parseFlexibleDate` calls the date library's `parse (value, format,
new Date (), \x7b locale: ro \x7d)` for each pattern in `DATE_FORMATS`
and returns the first valid result.  The library's `parse` scans the
format string token by token against the input, collects the
year/month/day values, rejects leftover non-whitespace input, and then
sets the collected fields on the reference date in priority order
(year, then month, then day), validating each: the year must be
positive, the month in 1-12, and the day within the month determined by
the already-set year and month — so nonexistent dates are rejected, not
wrapped.  Fields missing from the pattern keep the reference date's
values. -/

/-- Format tokens occurring in `DATE_FORMATS`: literal separator
characters plus the numeric and month-name field tokens. -/
inductive FmtTok where
  | lit (c : Char)
  | dd
  | d
  | MM
  | M
  | MMMM
  | yyyy
deriving DecidableEq, Repr

/-- ASCII digit test (regex `\d`). -/
def isDigitCh (c : Char) : Bool := '0' ≤ c && c ≤ '9'

/-- Numeric value of a digit character. -/
def digitVal (c : Char) : ℕ := c.toNat - '0'.toNat

/-- Take at most `k` leading digit characters (the greedy regex
`\d\x7b1,k\x7d`). -/
def takeDigits : ℕ → List Char → List Char × List Char
  | 0, cs => ([], cs)
  | _ + 1, [] => ([], [])
  | k + 1, c :: cs =>
    if isDigitCh c then
      let p := takeDigits k cs
      (c :: p.1, p.2)
    else ([], c :: cs)

/-- Decimal value of a digit string. -/
def valOfDigits (ds : List Char) : ℕ :=
  ds.foldl (fun a c => 10 * a + digitVal c) 0

/-- The remaining input does not begin with a digit (so a greedy digit
run cannot extend into it). -/
def NonDigitHead : List Char → Prop
  | [] => True
  | c :: _ => isDigitCh c = false

/-- The library's `parseNDigits k`: match 1 to `k` leading digits
greedily and return their value. -/
def parseNDigits (k : ℕ) (cs : List Char) : Option (ℤ × List Char) :=
  match takeDigits k cs with
  | ([], _) => none
  | (ds, rest) => some (((valOfDigits ds : ℕ) : ℤ), rest)

/-- The library's day-of-month pattern for the token `d`, the regex
`(3[0-1]|[0-2]?\d)` with ordered alternation: "30"/"31" take two
characters; a leading 0-2 followed by a digit takes two; otherwise a
single digit matches. -/
def parseDatePat (cs : List Char) : Option (ℤ × List Char) :=
  match cs with
  | [] => none
  | c1 :: rest1 =>
    if c1 = '3' then
      match rest1 with
      | c2 :: rest2 =>
        if c2 = '0' ∨ c2 = '1' then some (30 + (digitVal c2 : ℤ), rest2)
        else some (3, rest1)
      | [] => some (3, [])
    else if '0' ≤ c1 ∧ c1 ≤ '2' then
      match rest1 with
      | c2 :: rest2 =>
        if isDigitCh c2 then some (10 * (digitVal c1 : ℤ) + (digitVal c2 : ℤ), rest2)
        else some ((digitVal c1 : ℤ), rest1)
      | [] => some ((digitVal c1 : ℤ), [])
    else if isDigitCh c1 then some ((digitVal c1 : ℤ), rest1)
    else none

/-- The library's month pattern for the token `M`, the regex
`(1[0-2]|0?\d)`: "10"-"12" take two characters; a leading 0 followed by
a digit takes two; otherwise a single digit matches. -/
def parseMonthPat (cs : List Char) : Option (ℤ × List Char) :=
  match cs with
  | [] => none
  | c1 :: rest1 =>
    if c1 = '1' then
      match rest1 with
      | c2 :: rest2 =>
        if c2 = '0' ∨ c2 = '1' ∨ c2 = '2' then some (10 + (digitVal c2 : ℤ), rest2)
        else some (1, rest1)
      | [] => some (1, [])
    else if c1 = '0' then
      match rest1 with
      | c2 :: rest2 =>
        if isDigitCh c2 then some ((digitVal c2 : ℤ), rest2)
        else some (0, rest1)
      | [] => some (0, [])
    else if isDigitCh c1 then some ((digitVal c1 : ℤ), rest1)
    else none

/-- Wide month names of the Romanian locale, with the month value each
name resolves to (the locale's ordered match alternation; the parse
patterns map each name to exactly this index). -/
def roWideMonths : List (List Char × ℤ) :=
  [("ianuarie".data, 1), ("februarie".data, 2), ("martie".data, 3),
   ("aprilie".data, 4), ("mai".data, 5), ("iunie".data, 6),
   ("iulie".data, 7), ("august".data, 8), ("septembrie".data, 9),
   ("octombrie".data, 10), ("noiembrie".data, 11), ("decembrie".data, 12)]

/-- Abbreviated month names of the Romanian locale. -/
def roAbbrMonths : List (List Char × ℤ) :=
  [("ian".data, 1), ("feb".data, 2), ("mar".data, 3), ("apr".data, 4),
   ("mai".data, 5), ("iun".data, 6), ("iul".data, 7), ("aug".data, 8),
   ("sep".data, 9), ("oct".data, 10), ("noi".data, 11), ("dec".data, 12)]

/-- Case-insensitive anchored match of a lowercase pattern against the
input head (the locale regexes carry the `i` flag). -/
def ciPrefixOf : List Char → List Char → Bool
  | [], _ => true
  | _ :: _, [] => false
  | p :: ps, c :: cs => (p == Char.toLower c) && ciPrefixOf ps cs

/-- Try each name of an ordered alternation in turn; the first name
matching at the head of the input wins and its length is consumed. -/
def matchFromList : List (List Char × ℤ) → List Char → Option (ℤ × List Char)
  | [], _ => none
  | (nm, v) :: rest, cs =>
    if ciPrefixOf nm cs then some (v, cs.drop nm.length)
    else matchFromList rest cs

/-- The `MMMM` token with the Romanian locale: wide month names first,
then the abbreviated ones. -/
def parseMonthName (cs : List Char) : Option (ℤ × List Char) :=
  match matchFromList roWideMonths cs with
  | some r => some r
  | none => matchFromList roAbbrMonths cs

/-- Fields collected while scanning an input against a pattern. -/
structure ParsedFields where
  pyear : Option ℤ
  pmonth : Option ℤ
  pday : Option ℤ
deriving DecidableEq, Repr

/-- Scan the input against the pattern's tokens, collecting field
values; fails when a token does not match.  Month values are kept
1-based (the library stores 0-based indices and sets `value - 1`;
keeping both sides 1-based is the same function). -/
def scanTokens : List FmtTok → List Char → ParsedFields →
    Option (ParsedFields × List Char)
  | [], cs, f => some (f, cs)
  | FmtTok.lit c :: ts, cs, f =>
    match cs with
    | [] => none
    | c2 :: cs2 => if c2 = c then scanTokens ts cs2 f else none
  | FmtTok.dd :: ts, cs, f =>
    match parseNDigits 2 cs with
    | none => none
    | some (v, rest) => scanTokens ts rest ⟨f.pyear, f.pmonth, some v⟩
  | FmtTok.d :: ts, cs, f =>
    match parseDatePat cs with
    | none => none
    | some (v, rest) => scanTokens ts rest ⟨f.pyear, f.pmonth, some v⟩
  | FmtTok.MM :: ts, cs, f =>
    match parseNDigits 2 cs with
    | none => none
    | some (v, rest) => scanTokens ts rest ⟨f.pyear, some v, f.pday⟩
  | FmtTok.M :: ts, cs, f =>
    match parseMonthPat cs with
    | none => none
    | some (v, rest) => scanTokens ts rest ⟨f.pyear, some v, f.pday⟩
  | FmtTok.MMMM :: ts, cs, f =>
    match parseMonthName cs with
    | none => none
    | some (v, rest) => scanTokens ts rest ⟨f.pyear, some v, f.pday⟩
  | FmtTok.yyyy :: ts, cs, f =>
    match parseNDigits 4 cs with
    | none => none
    | some (v, rest) => scanTokens ts rest ⟨some v, f.pmonth, f.pday⟩

/-- Apply the collected fields to the reference date in priority order
(year 130, month 110, day 90), with the library's validations: year
positive, month 1-12, day within the month fixed by the year and month
already set.  Setting the year or the month resets the lower fields to
their minimum, as `setUTCFullYear (y, 0, 1)` / `setUTCMonth (m, 1)`
do. -/
def buildDate (ref : YMD) (f : ParsedFields) : Option YMD :=
  let step1 : Option YMD :=
    match f.pyear with
    | none => some ref
    | some y => if 0 < y then some ⟨y, 1, 1⟩ else none
  match step1 with
  | none => none
  | some a =>
    let step2 : Option YMD :=
      match f.pmonth with
      | none => some a
      | some m => if 1 ≤ m ∧ m ≤ 12 then some ⟨a.year, m, 1⟩ else none
    match step2 with
    | none => none
    | some b =>
      match f.pday with
      | none => some b
      | some d =>
        if 1 ≤ d ∧ d ≤ daysInMonth b.year b.month then some ⟨b.year, b.month, d⟩
        else none

/-- JS regex `\s` on the characters the widget can see. -/
def jsIsWS (c : Char) : Bool :=
  c == ' ' || c == '\t' || c == '\n' || c == '\r' || c == '\x0b' || c == '\x0c'

/-- The library's `parse` for one tokenized pattern: scan, reject
leftover non-whitespace input, then set and validate the fields on the
reference date. -/
def parseWithTokens (toks : List FmtTok) (cs : List Char) (ref : YMD) :
    Option YMD :=
  match scanTokens toks cs ⟨none, none, none⟩ with
  | none => none
  | some (f, rest) => if rest.all jsIsWS then buildDate ref f else none

/-- Group a format string into runs of equal characters (the library's
format tokenizer: maximal runs of a letter form a field token, anything
else is literal). -/
def runsOf : List Char → List (Char × ℕ)
  | [] => []
  | c :: cs =>
    match runsOf cs with
    | (c2, n) :: rs => if c = c2 then (c, n + 1) :: rs else (c, 1) :: (c2, n) :: rs
    | [] => [(c, 1)]

/-- Interpret one run as format tokens: the supported field tokens, or
repeated literals for non-letters; unsupported letter runs fail. -/
def runToToks : Char × ℕ → Option (List FmtTok)
  | ('d', 1) => some [FmtTok.d]
  | ('d', 2) => some [FmtTok.dd]
  | ('M', 1) => some [FmtTok.M]
  | ('M', 2) => some [FmtTok.MM]
  | ('M', 4) => some [FmtTok.MMMM]
  | ('y', 4) => some [FmtTok.yyyy]
  | (c, n) => if c.isAlpha then none else some (List.replicate n (FmtTok.lit c))

/-- Tokenize a format string. -/
def tokenizeFmt (fmt : String) : Option (List FmtTok) :=
  (List.mapM runToToks (runsOf fmt.data)).map List.flatten

/-- The ordered pattern list `DATE_FORMATS` of App.tsx lines 36-47. -/
def DATE_FORMATS : List String :=
  ["dd.MM.yyyy",
   "dd-MM-yyyy",
   "dd/MM/yyyy",
   "d.M.yyyy",
   "d-M-yyyy",
   "d/M/yyyy",
   "dd MMMM yyyy",
   "d MMMM yyyy",
   "yyyy-MM-dd",
   "yyyy/MM/dd"]

/-- One `parse (value, format, referenceDate, locale ro)` call. -/
def parseWithFormat (fmt : String) (cs : List Char) (ref : YMD) : Option YMD :=
  match tokenizeFmt fmt with
  | none => none
  | some toks => parseWithTokens toks cs ref

/-- The loop of `parseFlexibleDate`: first pattern whose parse is valid
wins; `null` when none does. -/
def parseFirst : List String → List Char → YMD → Option YMD
  | [], _, _ => none
  | f :: fs, cs, ref =>
    match parseWithFormat f cs ref with
    | some dt => some dt
    | none => parseFirst fs cs ref

/-- `parseFlexibleDate` of App.tsx lines 49-55. -/
def parseFlexibleDate (value : String) (ref : YMD) : Option YMD :=
  parseFirst DATE_FORMATS value.data ref

/-- How many `parse` calls the loop of `parseFlexibleDate` makes. -/
def attemptsFirst : List String → List Char → YMD → ℕ
  | [], _, _ => 0
  | f :: fs, cs, ref =>
    match parseWithFormat f cs ref with
    | some _ => 1
    | none => 1 + attemptsFirst fs cs ref

/-! ## The date library's `format` for the supported tokens

Needed for the round-trip property and for the blur handler, which
rewrites the input to `format (parsed, "dd.MM.yyyy")`. -/

/-- Decimal digit characters of a natural number (most significant
first), by bounded recursion on a fuel that the wrapper makes ample. -/
def natCharsAux : ℕ → ℕ → List Char
  | 0, _ => []
  | fuel + 1, n =>
    if n < 10 then [Nat.digitChar n]
    else natCharsAux fuel (n / 10) ++ [Nat.digitChar (n % 10)]

/-- Decimal digit string of a natural number (JS `String (n)`). -/
def natChars (n : ℕ) : List Char := natCharsAux (n + 1) n

/-- The library's `addLeadingZeros`: pad with zeros on the left to at
least `k` characters (`String (n).padStart (k, "0")`). -/
def addLeadingZeros (k : ℕ) (n : ℕ) : List Char :=
  List.replicate (k - (natChars n).length) '0' ++ natChars n

/-- The year the `yyyy` formatter displays: `signedYear > 0 ? signedYear
: 1 - signedYear`. -/
def yearDisplay (y : ℤ) : ℕ := (if 0 < y then y else 1 - y).toNat

/-- Wide Romanian month name used by the `MMMM` formatter. -/
def roWideName (m : ℤ) : List Char :=
  ((roWideMonths.find? (fun p => p.2 == m)).map (fun p => p.1)).getD []

/-- One format token rendered for a date (the library's formatters:
`d`/`M` unpadded, `dd`/`MM` two digits, `yyyy` at least four digits,
`MMMM` the locale's wide month name, literals verbatim). -/
def formatTok (a : YMD) : FmtTok → List Char
  | FmtTok.lit c => [c]
  | FmtTok.dd => addLeadingZeros 2 a.day.toNat
  | FmtTok.d => natChars a.day.toNat
  | FmtTok.MM => addLeadingZeros 2 a.month.toNat
  | FmtTok.M => natChars a.month.toNat
  | FmtTok.MMMM => roWideName a.month
  | FmtTok.yyyy => addLeadingZeros 4 (yearDisplay a.year)

/-- Render a token list for a date. -/
def formatToks (toks : List FmtTok) (a : YMD) : List Char :=
  (toks.map (formatTok a)).flatten

/-- The library's `format (date, pattern, locale ro)` for the supported
patterns. -/
def formatWithPattern (fmt : String) (a : YMD) : String :=
  match tokenizeFmt fmt with
  | none => ""
  | some toks => String.mk (formatToks toks a)

/-! ## Application state and event handlers -/

/-- JS `String.prototype.trim` on the whitespace the widget can see. -/
def jsTrim (cs : List Char) : List Char :=
  ((cs.dropWhile jsIsWS).reverse.dropWhile jsIsWS).reverse

/-- The error message of `handleSearch`. -/
def invalidMsg : String := "Invalid date. Please use a valid format."

/-- The pieces of React state the handlers read and write:
`selectedDate`, `inputValue`, `error`. -/
structure AppState where
  selectedDate : YMD
  inputValue : String
  errorMsg : Option String
deriving DecidableEq, Repr

/-- `handleSearch` of App.tsx lines 67-78 as a state transition (with
the reference date the source reads from `new Date ()` made an explicit
argument): an empty `inputValue` returns at once; otherwise the trimmed
input is parsed, and on success the selected date is set and the input
and error cleared, on failure only the error message is set. -/
def handleSearch (ref : YMD) (s : AppState) : AppState :=
  if s.inputValue = "" then s
  else
    match parseFirst DATE_FORMATS (jsTrim s.inputValue.data) ref with
    | some dt => ⟨dt, "", none⟩
    | none => ⟨s.selectedDate, s.inputValue, some invalidMsg⟩

/-- How many `parse` calls a `handleSearch` invocation makes. -/
def handleSearchAttempts (ref : YMD) (s : AppState) : ℕ :=
  if s.inputValue = "" then 0
  else attemptsFirst DATE_FORMATS (jsTrim s.inputValue.data) ref

/-- The `onBlur` handler of App.tsx lines 140-147: an empty input
returns at once; otherwise the trimmed input is parsed, and on success
the input text is rewritten to the parse formatted as `dd.MM.yyyy` and
the error cleared (the selected date untouched); on failure nothing
changes. -/
def handleBlur (ref : YMD) (s : AppState) : AppState :=
  if s.inputValue = "" then s
  else
    match parseFirst DATE_FORMATS (jsTrim s.inputValue.data) ref with
    | some dt => ⟨s.selectedDate, formatWithPattern "dd.MM.yyyy" dt, none⟩
    | none => s

/-! ## Helper lemmas -/

/-- The week array, written out. -/
theorem weekDays_eq (t : ℤ) :
    weekDays t = [startOfWeekMonday t, startOfWeekMonday t + 1,
      startOfWeekMonday t + 2, startOfWeekMonday t + 3, startOfWeekMonday t + 4,
      startOfWeekMonday t + 5, startOfWeekMonday t + 6] := by
  simp [weekDays, List.range_succ]

/-! ## Claims -/

/-- C1: the delta computation is claimed to subtract years and months
from R by standard calendar arithmetic, with Jan 31 minus months
landing on Feb 28/29 and never overflowing into the next month.  The
code instead steps with the JS `setMonth` mutator: at R = 2023-01-31,
T = 2023-03-01 it computes months = 1, then `setMonth` turns Jan 31
into Feb 31, which rolls over to Mar 3 — past T — so the final days
component is -2.  Standard calendar arithmetic would clamp to Feb 28
and report 0 years, 1 month, 1 day. -/
theorem delta_setMonth_overflows_jan31 :
    jsSetMonth 1 ⟨2023, 1, 31⟩ = ⟨2023, 3, 3⟩ ∧
    (computeDelta ⟨2023, 1, 31⟩ ⟨2023, 3, 1⟩).years = 0 ∧
    (computeDelta ⟨2023, 1, 31⟩ ⟨2023, 3, 1⟩).months = 1 ∧
    (computeDelta ⟨2023, 1, 31⟩ ⟨2023, 3, 1⟩).remainingAfterMonths = ⟨2023, 3, 3⟩ ∧
    (computeDelta ⟨2023, 1, 31⟩ ⟨2023, 3, 1⟩).days = -2 := by
  decide

/-- C2: years, months and days are claimed non-negative whenever
T ≥ R.  At R = 2023-01-31, T = 2023-03-01 (T is 29 days after R) the
code computes days = -2. -/
theorem delta_days_negative_at_jan31 :
    0 ≤ differenceInDays ⟨2023, 3, 1⟩ ⟨2023, 1, 31⟩ ∧
    (computeDelta ⟨2023, 1, 31⟩ ⟨2023, 3, 1⟩).days = -2 ∧
    ¬ (0 ≤ (computeDelta ⟨2023, 1, 31⟩ ⟨2023, 3, 1⟩).days) := by
  decide

/-- C5: the parser accepts "29.02.2024" (2024 is a leap year) as
29 February 2024 and rejects "29.02.2023" outright (2023 is not),
whatever reference date the `parse` calls receive: nonexistent dates
fail day validation instead of wrapping. -/
theorem parse_leap_day_validation (ref : YMD) :
    parseFlexibleDate "29.02.2024" ref = some ⟨2024, 2, 29⟩ ∧
    parseFlexibleDate "29.02.2023" ref = none :=
  ⟨rfl, rfl⟩

/-- C7: for every selected date the week window has exactly 7 entries,
consecutive calendar days in increasing order; the first is the Monday
on or before the selected date (uniquely so), the last a Sunday, and
that Monday is in the window. -/
theorem weekDays_window (t : ℤ) :
    (weekDays t).length = 7 ∧
    List.Chain' (fun a b => b = a + 1) (weekDays t) ∧
    (weekDays t).head? = some (startOfWeekMonday t) ∧
    (weekDays t).getLast? = some (startOfWeekMonday t + 6) ∧
    getDayOfWeek (startOfWeekMonday t) = 1 ∧
    getDayOfWeek (startOfWeekMonday t + 6) = 0 ∧
    startOfWeekMonday t ≤ t ∧ t < startOfWeekMonday t + 7 ∧
    startOfWeekMonday t ∈ weekDays t ∧
    (∀ w2 : ℤ, getDayOfWeek w2 = 1 → w2 ≤ t → t < w2 + 7 →
      w2 = startOfWeekMonday t) := by
  have hw := weekDays_eq t
  refine ⟨by rw [hw]; rfl, by rw [hw]; simp; omega, by rw [hw]; rfl, by rw [hw]; rfl,
    ?_, ?_, ?_, ?_, by rw [hw]; simp, ?_⟩
  · simp only [getDayOfWeek, startOfWeekMonday]
    split <;> omega
  · simp only [getDayOfWeek, startOfWeekMonday]
    split <;> omega
  · simp only [startOfWeekMonday, getDayOfWeek]
    split <;> omega
  · simp only [startOfWeekMonday, getDayOfWeek]
    split <;> omega
  · intro w2 h1 h2 h3
    simp only [getDayOfWeek] at h1
    simp only [startOfWeekMonday, getDayOfWeek]
    split <;> omega

/-- The trial loop returns the i-th parse when it succeeds and every
earlier pattern fails. -/
theorem parseFirst_first_success :
    ∀ (fmts : List String) (cs : List Char) (ref : YMD) (i : ℕ) (fmt : String)
      (dt : YMD),
      fmts[i]? = some fmt →
      parseWithFormat fmt cs ref = some dt →
      (∀ j : ℕ, j < i → ∀ fmt2 : String, fmts[j]? = some fmt2 →
        parseWithFormat fmt2 cs ref = none) →
      parseFirst fmts cs ref = some dt := by
  intro fmts
  induction fmts with
  | nil => intro cs ref i fmt dt hget; simp at hget
  | cons f fs ih =>
    intro cs ref i fmt dt hget hok hprev
    cases i with
    | zero =>
      simp at hget
      subst hget
      simp [parseFirst, hok]
    | succ i =>
      have h0 : parseWithFormat f cs ref = none := hprev 0 (Nat.succ_pos i) f (by simp)
      simp only [parseFirst, h0]
      exact ih cs ref i fmt dt (by simpa using hget) hok
        (fun j hj fmt2 hg => hprev (j + 1) (by omega) fmt2 (by simpa using hg))

/-- C3: the parser tries the patterns of `DATE_FORMATS` in list order
and returns the date of the first pattern that yields a valid calendar
date; on the input "15/03/2023" the first two patterns fail on their
separators, the third (`dd/MM/yyyy`) matches, and the result is
15 March 2023. -/
theorem parseFlexibleDate_first_match :
    (∀ (value : String) (ref : YMD) (i : ℕ) (fmt : String) (dt : YMD),
      DATE_FORMATS[i]? = some fmt →
      parseWithFormat fmt value.data ref = some dt →
      (∀ j : ℕ, j < i → ∀ fmt2 : String, DATE_FORMATS[j]? = some fmt2 →
        parseWithFormat fmt2 value.data ref = none) →
      parseFlexibleDate value ref = some dt) ∧
    (∀ ref : YMD,
      DATE_FORMATS[2]? = some "dd/MM/yyyy" ∧
      parseWithFormat "dd.MM.yyyy" "15/03/2023".data ref = none ∧
      parseWithFormat "dd-MM-yyyy" "15/03/2023".data ref = none ∧
      parseWithFormat "dd/MM/yyyy" "15/03/2023".data ref = some ⟨2023, 3, 15⟩ ∧
      parseFlexibleDate "15/03/2023" ref = some ⟨2023, 3, 15⟩) := by
  constructor
  · intro value ref i fmt dt hget hok hprev
    exact parseFirst_first_success DATE_FORMATS value.data ref i fmt dt hget hok hprev
  · intro ref
    exact ⟨rfl, rfl, rfl, rfl, rfl⟩

/-- C3 witness: the theorem applied at the concrete input. -/
theorem parseFlexibleDate_first_match_witness :
    parseFlexibleDate "15/03/2023" ⟨2020, 1, 1⟩ = some ⟨2023, 3, 15⟩ :=
  parseFlexibleDate_first_match.1 "15/03/2023" ⟨2020, 1, 1⟩ 2 "dd/MM/yyyy"
    ⟨2023, 3, 15⟩ rfl rfl
    (by
      intro j hj fmt2 hf
      interval_cases j
      · rw [show DATE_FORMATS[0]? = some "dd.MM.yyyy" from rfl] at hf
        cases hf
        rfl
      · rw [show DATE_FORMATS[1]? = some "dd-MM-yyyy" from rfl] at hf
        cases hf
        rfl)

/-- A successful scan of a pattern containing `yyyy` has collected a
year. -/
theorem scan_pyear_isSome :
    ∀ (toks : List FmtTok) (cs : List Char) (f0 f : ParsedFields)
      (rest : List Char),
      scanTokens toks cs f0 = some (f, rest) →
      (FmtTok.yyyy ∈ toks ∨ f0.pyear.isSome) → f.pyear.isSome := by
  intro toks
  induction toks with
  | nil =>
    intro cs f0 f rest h hmem
    simp only [scanTokens, Option.some.injEq, Prod.mk.injEq] at h
    rcases h with ⟨rfl, rfl⟩
    simpa using hmem
  | cons t ts ih =>
    intro cs f0 f rest h hmem
    have hmem2 : FmtTok.yyyy ∈ t :: ts ↔ (FmtTok.yyyy = t ∨ FmtTok.yyyy ∈ ts) :=
      List.mem_cons
    cases t with
    | lit c =>
      cases cs with
      | nil => simp [scanTokens] at h
      | cons c2 cs2 =>
        simp only [scanTokens] at h
        split at h
        · exact ih cs2 f0 f rest h (by rcases hmem with hm | hm
                                       · rcases hmem2.mp hm with hm2 | hm2
                                         · exact absurd hm2 (by simp)
                                         · exact Or.inl hm2
                                       · exact Or.inr hm)
        · exact absurd h (by simp)
    | dd =>
      simp only [scanTokens] at h
      cases hp : parseNDigits 2 cs with
      | none => rw [hp] at h; simp at h
      | some p =>
        rw [hp] at h
        exact ih p.2 _ f rest h (by rcases hmem with hm | hm
                                    · rcases hmem2.mp hm with hm2 | hm2
                                      · exact absurd hm2 (by simp)
                                      · exact Or.inl hm2
                                    · exact Or.inr hm)
    | d =>
      simp only [scanTokens] at h
      cases hp : parseDatePat cs with
      | none => rw [hp] at h; simp at h
      | some p =>
        rw [hp] at h
        exact ih p.2 _ f rest h (by rcases hmem with hm | hm
                                    · rcases hmem2.mp hm with hm2 | hm2
                                      · exact absurd hm2 (by simp)
                                      · exact Or.inl hm2
                                    · exact Or.inr hm)
    | MM =>
      simp only [scanTokens] at h
      cases hp : parseNDigits 2 cs with
      | none => rw [hp] at h; simp at h
      | some p =>
        rw [hp] at h
        exact ih p.2 _ f rest h (by rcases hmem with hm | hm
                                    · rcases hmem2.mp hm with hm2 | hm2
                                      · exact absurd hm2 (by simp)
                                      · exact Or.inl hm2
                                    · exact Or.inr hm)
    | M =>
      simp only [scanTokens] at h
      cases hp : parseMonthPat cs with
      | none => rw [hp] at h; simp at h
      | some p =>
        rw [hp] at h
        exact ih p.2 _ f rest h (by rcases hmem with hm | hm
                                    · rcases hmem2.mp hm with hm2 | hm2
                                      · exact absurd hm2 (by simp)
                                      · exact Or.inl hm2
                                    · exact Or.inr hm)
    | MMMM =>
      simp only [scanTokens] at h
      cases hp : parseMonthName cs with
      | none => rw [hp] at h; simp at h
      | some p =>
        rw [hp] at h
        exact ih p.2 _ f rest h (by rcases hmem with hm | hm
                                    · rcases hmem2.mp hm with hm2 | hm2
                                      · exact absurd hm2 (by simp)
                                      · exact Or.inl hm2
                                    · exact Or.inr hm)
    | yyyy =>
      simp only [scanTokens] at h
      cases hp : parseNDigits 4 cs with
      | none => rw [hp] at h; simp at h
      | some p =>
        rw [hp] at h
        exact ih p.2 _ f rest h (Or.inr (by simp))

/-- Step a membership-or-carried disjunct past a head token that is not
the one sought. -/
theorem mem_cons_elim {x t : FmtTok} {ts : List FmtTok} {b : Prop}
    (h : x ∈ t :: ts ∨ b) (hne : x ≠ t) : x ∈ ts ∨ b := by
  rcases h with h | h
  · rcases List.mem_cons.mp h with h2 | h2
    · exact absurd h2 hne
    · exact Or.inl h2
  · exact Or.inr h

/-- Step the month-token disjunction past a head token that sets no
month. -/
theorem monthMem_step {t : FmtTok} {ts : List FmtTok} {b : Prop}
    (h : FmtTok.MM ∈ t :: ts ∨ FmtTok.M ∈ t :: ts ∨ FmtTok.MMMM ∈ t :: ts ∨ b)
    (h1 : FmtTok.MM ≠ t) (h2 : FmtTok.M ≠ t) (h3 : FmtTok.MMMM ≠ t) :
    FmtTok.MM ∈ ts ∨ FmtTok.M ∈ ts ∨ FmtTok.MMMM ∈ ts ∨ b := by
  rcases h with h | h | h | h
  · rcases List.mem_cons.mp h with h4 | h4
    · exact absurd h4 h1
    · exact Or.inl h4
  · rcases List.mem_cons.mp h with h4 | h4
    · exact absurd h4 h2
    · exact Or.inr (Or.inl h4)
  · rcases List.mem_cons.mp h with h4 | h4
    · exact absurd h4 h3
    · exact Or.inr (Or.inr (Or.inl h4))
  · exact Or.inr (Or.inr (Or.inr h))

/-- Step the day-token disjunction past a head token that sets no
day. -/
theorem dayMem_step {t : FmtTok} {ts : List FmtTok} {b : Prop}
    (h : FmtTok.dd ∈ t :: ts ∨ FmtTok.d ∈ t :: ts ∨ b)
    (h1 : FmtTok.dd ≠ t) (h2 : FmtTok.d ≠ t) :
    FmtTok.dd ∈ ts ∨ FmtTok.d ∈ ts ∨ b := by
  rcases h with h | h | h
  · rcases List.mem_cons.mp h with h4 | h4
    · exact absurd h4 h1
    · exact Or.inl h4
  · rcases List.mem_cons.mp h with h4 | h4
    · exact absurd h4 h2
    · exact Or.inr (Or.inl h4)
  · exact Or.inr (Or.inr h)

/-- A successful scan of a pattern containing a month token has
collected a month. -/
theorem scan_pmonth_isSome :
    ∀ (toks : List FmtTok) (cs : List Char) (f0 f : ParsedFields)
      (rest : List Char),
      scanTokens toks cs f0 = some (f, rest) →
      (FmtTok.MM ∈ toks ∨ FmtTok.M ∈ toks ∨ FmtTok.MMMM ∈ toks ∨
        f0.pmonth.isSome) →
      f.pmonth.isSome := by
  intro toks
  induction toks with
  | nil =>
    intro cs f0 f rest h hmem
    simp only [scanTokens, Option.some.injEq, Prod.mk.injEq] at h
    rcases h with ⟨rfl, rfl⟩
    simpa using hmem
  | cons t ts ih =>
    intro cs f0 f rest h hmem
    cases t with
    | lit c =>
      cases cs with
      | nil => simp [scanTokens] at h
      | cons c2 cs2 =>
        simp only [scanTokens] at h
        split at h
        · exact ih cs2 f0 f rest h
            (monthMem_step hmem (by simp) (by simp) (by simp))
        · exact absurd h (by simp)
    | dd =>
      simp only [scanTokens] at h
      cases hp : parseNDigits 2 cs with
      | none => rw [hp] at h; simp at h
      | some p =>
        rw [hp] at h
        exact ih p.2 _ f rest h
          (monthMem_step hmem (by simp) (by simp) (by simp))
    | d =>
      simp only [scanTokens] at h
      cases hp : parseDatePat cs with
      | none => rw [hp] at h; simp at h
      | some p =>
        rw [hp] at h
        exact ih p.2 _ f rest h
          (monthMem_step hmem (by simp) (by simp) (by simp))
    | MM =>
      simp only [scanTokens] at h
      cases hp : parseNDigits 2 cs with
      | none => rw [hp] at h; simp at h
      | some p =>
        rw [hp] at h
        exact ih p.2 _ f rest h (Or.inr (Or.inr (Or.inr (by simp))))
    | M =>
      simp only [scanTokens] at h
      cases hp : parseMonthPat cs with
      | none => rw [hp] at h; simp at h
      | some p =>
        rw [hp] at h
        exact ih p.2 _ f rest h (Or.inr (Or.inr (Or.inr (by simp))))
    | MMMM =>
      simp only [scanTokens] at h
      cases hp : parseMonthName cs with
      | none => rw [hp] at h; simp at h
      | some p =>
        rw [hp] at h
        exact ih p.2 _ f rest h (Or.inr (Or.inr (Or.inr (by simp))))
    | yyyy =>
      simp only [scanTokens] at h
      cases hp : parseNDigits 4 cs with
      | none => rw [hp] at h; simp at h
      | some p =>
        rw [hp] at h
        exact ih p.2 _ f rest h
          (monthMem_step hmem (by simp) (by simp) (by simp))

/-- A successful scan of a pattern containing a day token has collected
a day. -/
theorem scan_pday_isSome :
    ∀ (toks : List FmtTok) (cs : List Char) (f0 f : ParsedFields)
      (rest : List Char),
      scanTokens toks cs f0 = some (f, rest) →
      (FmtTok.dd ∈ toks ∨ FmtTok.d ∈ toks ∨ f0.pday.isSome) →
      f.pday.isSome := by
  intro toks
  induction toks with
  | nil =>
    intro cs f0 f rest h hmem
    simp only [scanTokens, Option.some.injEq, Prod.mk.injEq] at h
    rcases h with ⟨rfl, rfl⟩
    simpa using hmem
  | cons t ts ih =>
    intro cs f0 f rest h hmem
    cases t with
    | lit c =>
      cases cs with
      | nil => simp [scanTokens] at h
      | cons c2 cs2 =>
        simp only [scanTokens] at h
        split at h
        · exact ih cs2 f0 f rest h (dayMem_step hmem (by simp) (by simp))
        · exact absurd h (by simp)
    | dd =>
      simp only [scanTokens] at h
      cases hp : parseNDigits 2 cs with
      | none => rw [hp] at h; simp at h
      | some p =>
        rw [hp] at h
        exact ih p.2 _ f rest h (Or.inr (Or.inr (by simp)))
    | d =>
      simp only [scanTokens] at h
      cases hp : parseDatePat cs with
      | none => rw [hp] at h; simp at h
      | some p =>
        rw [hp] at h
        exact ih p.2 _ f rest h (Or.inr (Or.inr (by simp)))
    | MM =>
      simp only [scanTokens] at h
      cases hp : parseNDigits 2 cs with
      | none => rw [hp] at h; simp at h
      | some p =>
        rw [hp] at h
        exact ih p.2 _ f rest h (dayMem_step hmem (by simp) (by simp))
    | M =>
      simp only [scanTokens] at h
      cases hp : parseMonthPat cs with
      | none => rw [hp] at h; simp at h
      | some p =>
        rw [hp] at h
        exact ih p.2 _ f rest h (dayMem_step hmem (by simp) (by simp))
    | MMMM =>
      simp only [scanTokens] at h
      cases hp : parseMonthName cs with
      | none => rw [hp] at h; simp at h
      | some p =>
        rw [hp] at h
        exact ih p.2 _ f rest h (dayMem_step hmem (by simp) (by simp))
    | yyyy =>
      simp only [scanTokens] at h
      cases hp : parseNDigits 4 cs with
      | none => rw [hp] at h; simp at h
      | some p =>
        rw [hp] at h
        exact ih p.2 _ f rest h (dayMem_step hmem (by simp) (by simp))

/-- When the pattern supplied all three fields, the reference date does
not influence the built date. -/
theorem buildDate_ref_irrel (f : ParsedFields) (h1 : f.pyear.isSome)
    (h2 : f.pmonth.isSome) (h3 : f.pday.isSome) (r1 r2 : YMD) :
    buildDate r1 f = buildDate r2 f := by
  rcases f with ⟨py, pm, pd⟩
  cases py with
  | none => simp at h1
  | some y =>
    cases pm with
    | none => simp at h2
    | some m =>
      cases pd with
      | none => simp at h3
      | some d => rfl

/-- For a pattern with year, month and day tokens, one `parse` call is
independent of its reference date. -/
theorem parseWithTokens_ref_irrel (toks : List FmtTok)
    (hy : FmtTok.yyyy ∈ toks)
    (hm : FmtTok.MM ∈ toks ∨ FmtTok.M ∈ toks ∨ FmtTok.MMMM ∈ toks)
    (hd : FmtTok.dd ∈ toks ∨ FmtTok.d ∈ toks)
    (cs : List Char) (r1 r2 : YMD) :
    parseWithTokens toks cs r1 = parseWithTokens toks cs r2 := by
  rcases hscan : scanTokens toks cs ⟨none, none, none⟩ with _ | ⟨f, rest⟩
  · simp [parseWithTokens, hscan]
  · simp only [parseWithTokens, hscan]
    split
    · exact buildDate_ref_irrel f
        (scan_pyear_isSome toks cs _ f rest hscan (Or.inl hy))
        (scan_pmonth_isSome toks cs _ f rest hscan
          (by rcases hm with h | h | h
              · exact Or.inl h
              · exact Or.inr (Or.inl h)
              · exact Or.inr (Or.inr (Or.inl h))))
        (scan_pday_isSome toks cs _ f rest hscan
          (by rcases hd with h | h
              · exact Or.inl h
              · exact Or.inr (Or.inl h)))
        r1 r2
    · rfl

/-- Every pattern of `DATE_FORMATS` parses independently of the
reference date: each contains year, month and day tokens. -/
theorem parseWithFormat_ref_irrel (fmt : String) (hf : fmt ∈ DATE_FORMATS)
    (cs : List Char) (r1 r2 : YMD) :
    parseWithFormat fmt cs r1 = parseWithFormat fmt cs r2 := by
  simp only [DATE_FORMATS, List.mem_cons, List.not_mem_nil, or_false] at hf
  rcases hf with rfl | rfl | rfl | rfl | rfl | rfl | rfl | rfl | rfl | rfl <;>
    exact parseWithTokens_ref_irrel _ (by decide) (by decide) (by decide) cs r1 r2

/-- The whole trial loop is independent of the reference date when every
listed pattern is. -/
theorem parseFirst_ref_irrel :
    ∀ (fmts : List String),
      (∀ fmt ∈ fmts, ∀ (cs : List Char) (r1 r2 : YMD),
        parseWithFormat fmt cs r1 = parseWithFormat fmt cs r2) →
      ∀ (cs : List Char) (r1 r2 : YMD),
        parseFirst fmts cs r1 = parseFirst fmts cs r2 := by
  intro fmts
  induction fmts with
  | nil => intro _ cs r1 r2; rfl
  | cons f fs ih =>
    intro hall cs r1 r2
    simp only [parseFirst]
    rw [hall f (by simp) cs r1 r2]
    cases parseWithFormat f cs r2 with
    | none =>
      exact ih (fun g hg => hall g (by simp [hg])) cs r1 r2
    | some dt => rfl

/-- The flexible parser ignores the clock it is handed. -/
theorem parseFlexibleDate_ref_irrel (value : String) (r1 r2 : YMD) :
    parseFlexibleDate value r1 = parseFlexibleDate value r2 :=
  parseFirst_ref_irrel DATE_FORMATS
    (fun fmt hf => parseWithFormat_ref_irrel fmt hf) value.data r1 r2

/-- C8: the flexible parser is a pure function of its input string: two
invocations with different reference clocks (the `new Date ()` read at
call time) return the same result, and the `Option` result carries at
most one date. -/
theorem parseFlexibleDate_deterministic (value : String) (r1 r2 : YMD) :
    parseFlexibleDate value r1 = parseFlexibleDate value r2 ∧
    (parseFlexibleDate value r1).toList.length ≤ 1 := by
  refine ⟨parseFlexibleDate_ref_irrel value r1 r2, ?_⟩
  cases parseFlexibleDate value r1 <;> simp

/-- Trimming an all-whitespace string leaves nothing. -/
theorem jsTrim_of_all_ws (cs : List Char) (h : cs.all jsIsWS = true) :
    jsTrim cs = [] := by
  have h1 : cs.dropWhile jsIsWS = [] :=
    List.dropWhile_eq_nil_iff.mpr (by simpa [List.all_eq_true] using h)
  simp [jsTrim, h1]

/-- C6 counterexample: on the whitespace-only input " " the search
handler does not short-circuit: its guard only catches the empty
string, so the trimmed (empty) text is parsed against all ten patterns
and the invalid-date error is raised. -/
theorem whitespace_input_attempts_all_patterns :
    handleSearchAttempts ⟨2020, 1, 1⟩ ⟨⟨2020, 1, 1⟩, " ", none⟩ = 10 ∧
    handleSearch ⟨2020, 1, 1⟩ ⟨⟨2020, 1, 1⟩, " ", none⟩ =
      ⟨⟨2020, 1, 1⟩, " ", some invalidMsg⟩ := by
  decide

/-- C6 (amended): only the exactly-empty input short-circuits with no
parse attempted; a non-empty whitespace-only input trims to the empty
string, is attempted against all ten patterns (each failing), and
produces the invalid-date error. -/
theorem handleSearch_empty_vs_whitespace :
    (∀ (ref : YMD) (s : AppState), s.inputValue = "" →
      handleSearch ref s = s ∧ handleSearchAttempts ref s = 0) ∧
    (∀ (ref : YMD) (s : AppState), s.inputValue ≠ "" →
      s.inputValue.data.all jsIsWS = true →
      handleSearch ref s = ⟨s.selectedDate, s.inputValue, some invalidMsg⟩ ∧
      handleSearchAttempts ref s = 10) := by
  constructor
  · intro ref s h
    constructor
    · simp [handleSearch, h]
    · simp [handleSearchAttempts, h]
  · intro ref s h1 h2
    have ht : jsTrim s.inputValue.data = [] := jsTrim_of_all_ws _ h2
    have hnone : parseFirst DATE_FORMATS ([] : List Char) ref = none := rfl
    have hcnt : attemptsFirst DATE_FORMATS ([] : List Char) ref = 10 := rfl
    constructor
    · simp [handleSearch, h1, ht, hnone]
    · simp [handleSearchAttempts, h1, ht, hcnt]

/-- C6 witness: the amended claim applied to an empty and to a
whitespace-only state. -/
theorem handleSearch_empty_vs_whitespace_witness :
    handleSearch ⟨2020, 1, 1⟩ ⟨⟨2021, 5, 5⟩, "", some invalidMsg⟩ =
      ⟨⟨2021, 5, 5⟩, "", some invalidMsg⟩ ∧
    handleSearchAttempts ⟨2020, 1, 1⟩ ⟨⟨2021, 5, 5⟩, "  ", none⟩ = 10 :=
  ⟨(handleSearch_empty_vs_whitespace.1 ⟨2020, 1, 1⟩ _ rfl).1,
   (handleSearch_empty_vs_whitespace.2 ⟨2020, 1, 1⟩ _ (by decide) (by decide)).2⟩

/-- C9 counterexample: the empty string is matched by no pattern, yet
the search handler returns without setting any message — the claimed
"turns every no-match into the user-visible message" fails there. -/
theorem empty_input_no_error_message :
    parseFlexibleDate "" ⟨2020, 1, 1⟩ = none ∧
    handleSearch ⟨2020, 1, 1⟩ ⟨⟨2020, 1, 1⟩, "", none⟩ = ⟨⟨2020, 1, 1⟩, "", none⟩ ∧
    (handleSearch ⟨2020, 1, 1⟩ ⟨⟨2020, 1, 1⟩, "", none⟩).errorMsg ≠ some invalidMsg := by
  decide

/-- C9 (amended): for every non-empty input whose trimmed text no
pattern matches, the parser signals failure as the explicit empty
result (`none` — the model is a total function, nothing is thrown), and
the search handler turns it into the message "Invalid date. Please use
a valid format." while leaving the input text and the selected date
unchanged. -/
theorem handleSearch_failure_sets_message (ref : YMD) (s : AppState)
    (h1 : s.inputValue ≠ "")
    (h2 : parseFlexibleDate (String.mk (jsTrim s.inputValue.data)) ref = none) :
    handleSearch ref s = ⟨s.selectedDate, s.inputValue, some invalidMsg⟩ := by
  have h3 : parseFirst DATE_FORMATS (jsTrim s.inputValue.data) ref = none := h2
  simp [handleSearch, h1, h3]

/-- C9 witness: the amended claim applied to the unparseable input
"hello". -/
theorem handleSearch_failure_sets_message_witness :
    handleSearch ⟨2020, 1, 1⟩ ⟨⟨2020, 1, 1⟩, "hello", none⟩ =
      ⟨⟨2020, 1, 1⟩, "hello", some invalidMsg⟩ :=
  handleSearch_failure_sets_message ⟨2020, 1, 1⟩ _ (by decide) (by decide)

/-- C10: on blur with non-empty text, a parseable trimmed input
rewrites the text to the parse formatted as dd.MM.yyyy and clears the
error while leaving the selected date alone; an unparseable one leaves
the whole state (text, date, error) unchanged and sets no message. -/
theorem handleBlur_spec (ref : YMD) (s : AppState) (h1 : s.inputValue ≠ "") :
    (∀ dt : YMD,
      parseFlexibleDate (String.mk (jsTrim s.inputValue.data)) ref = some dt →
      handleBlur ref s = ⟨s.selectedDate, formatWithPattern "dd.MM.yyyy" dt, none⟩) ∧
    (parseFlexibleDate (String.mk (jsTrim s.inputValue.data)) ref = none →
      handleBlur ref s = s) := by
  constructor
  · intro dt h2
    have h3 : parseFirst DATE_FORMATS (jsTrim s.inputValue.data) ref = some dt := h2
    simp [handleBlur, h1, h3]
  · intro h2
    have h3 : parseFirst DATE_FORMATS (jsTrim s.inputValue.data) ref = none := h2
    simp [handleBlur, h1, h3]

/-- C10 witness: the theorem applied to a parseable and to an
unparseable blur. -/
theorem handleBlur_spec_witness :
    handleBlur ⟨2020, 1, 1⟩ ⟨⟨2020, 1, 1⟩, "15/03/2023", some invalidMsg⟩ =
      ⟨⟨2020, 1, 1⟩, "15.03.2023", none⟩ ∧
    handleBlur ⟨2020, 1, 1⟩ ⟨⟨2024, 2, 2⟩, "hello", none⟩ =
      ⟨⟨2024, 2, 2⟩, "hello", none⟩ :=
  ⟨((handleBlur_spec ⟨2020, 1, 1⟩ ⟨⟨2020, 1, 1⟩, "15/03/2023", some invalidMsg⟩
      (by decide)).1 ⟨2023, 3, 15⟩ (by decide)).trans (by decide),
   (handleBlur_spec ⟨2020, 1, 1⟩ ⟨⟨2024, 2, 2⟩, "hello", none⟩
      (by decide)).2 (by decide)⟩

/-! ## Digit-string lemmas for the round-trip property -/

/-- Digit characters are digits. -/
theorem isDigitCh_digitChar (n : ℕ) (h : n < 10) :
    isDigitCh (Nat.digitChar n) = true := by
  interval_cases n <;> decide

/-- Digit characters carry their value. -/
theorem digitVal_digitChar (n : ℕ) (h : n < 10) :
    digitVal (Nat.digitChar n) = n := by
  interval_cases n <;> decide

/-- Every character the decimal printer emits is a digit. -/
theorem natCharsAux_all_digits :
    ∀ (fuel n : ℕ), (natCharsAux fuel n).all isDigitCh = true := by
  intro fuel
  induction fuel with
  | zero => intro n; rfl
  | succ fuel ih =>
    intro n
    by_cases h : n < 10
    · simp [natCharsAux, h, isDigitCh_digitChar n h]
    · have h10 : n % 10 < 10 := Nat.mod_lt n (by omega)
      simp [natCharsAux, h, ih (n / 10), isDigitCh_digitChar (n % 10) h10]

/-- The printer output is never empty. -/
theorem natCharsAux_ne_nil :
    ∀ (fuel n : ℕ), 1 ≤ fuel → natCharsAux fuel n ≠ [] := by
  intro fuel n h
  cases fuel with
  | zero => omega
  | succ fuel =>
    by_cases h2 : n < 10 <;> simp [natCharsAux, h2]

/-- Appending one digit multiplies the value by ten. -/
theorem valOfDigits_append_digit (ds : List Char) (c : Char) :
    valOfDigits (ds ++ [c]) = 10 * valOfDigits ds + digitVal c := by
  simp [valOfDigits, List.foldl_append]

/-- The printer is value-correct when the fuel covers the number. -/
theorem valOf_natCharsAux :
    ∀ (fuel n : ℕ), n < 10 ^ fuel → valOfDigits (natCharsAux fuel n) = n := by
  intro fuel
  induction fuel with
  | zero => intro n h; simp at h; simp [natCharsAux, valOfDigits, h]
  | succ fuel ih =>
    intro n h
    by_cases h2 : n < 10
    · simp [natCharsAux, h2, valOfDigits, digitVal_digitChar n h2]
    · have hdiv : n / 10 < 10 ^ fuel := by
        rw [Nat.div_lt_iff_lt_mul (by omega : 0 < 10)]
        calc n < 10 ^ (fuel + 1) := h
        _ = 10 ^ fuel * 10 := by ring
      simp only [natCharsAux, h2, if_false]
      rw [valOfDigits_append_digit, ih (n / 10) hdiv,
        digitVal_digitChar (n % 10) (Nat.mod_lt n (by omega))]
      omega

/-- Plenty of fuel: a number is smaller than ten to its successor. -/
theorem lt_ten_pow_succ (n : ℕ) : n < 10 ^ (n + 1) := by
  calc n < 10 ^ n := Nat.lt_pow_self (by omega) n
  _ ≤ 10 ^ (n + 1) := Nat.pow_le_pow_right (by omega) (by omega)

/-- `natChars` prints the decimal value. -/
theorem valOf_natChars (n : ℕ) : valOfDigits (natChars n) = n :=
  valOf_natCharsAux (n + 1) n (lt_ten_pow_succ n)

/-- `natChars` emits digits only. -/
theorem natChars_all_digits (n : ℕ) : (natChars n).all isDigitCh = true :=
  natCharsAux_all_digits (n + 1) n

/-- `natChars` output is nonempty. -/
theorem natChars_ne_nil (n : ℕ) : natChars n ≠ [] :=
  natCharsAux_ne_nil (n + 1) n (by omega)

/-- Bounded numbers print within the bound, fuel permitting. -/
theorem natCharsAux_length_le :
    ∀ (fuel k n : ℕ), n < 10 ^ k → 1 ≤ k → (natCharsAux fuel n).length ≤ k := by
  intro fuel
  induction fuel with
  | zero => intro k n _ _; simp [natCharsAux]
  | succ fuel ih =>
    intro k n hn hk
    by_cases h2 : n < 10
    · simp [natCharsAux, h2]; omega
    · have hk2 : 2 ≤ k := by
        by_contra hcon
        have : k = 1 := by omega
        subst this
        simp at hn
        omega
      have hdiv : n / 10 < 10 ^ (k - 1) := by
        rw [Nat.div_lt_iff_lt_mul (by omega : 0 < 10)]
        calc n < 10 ^ k := hn
        _ = 10 ^ (k - 1) * 10 := by
            rw [← pow_succ]
            congr 1
            omega
      simp only [natCharsAux, h2, if_false, List.length_append]
      have := ih (k - 1) (n / 10) hdiv (by omega)
      simp
      omega

/-- `natChars` length bound. -/
theorem natChars_length_le (k n : ℕ) (hn : n < 10 ^ k) (hk : 1 ≤ k) :
    (natChars n).length ≤ k :=
  natCharsAux_length_le (n + 1) k n hn hk

/-- Zero padding reaches exactly the requested width. -/
theorem addLeadingZeros_length (k n : ℕ) (hn : n < 10 ^ k) (hk : 1 ≤ k) :
    (addLeadingZeros k n).length = k := by
  have h := natChars_length_le k n hn hk
  simp [addLeadingZeros]
  omega

/-- Zero padding emits digits only. -/
theorem addLeadingZeros_all_digits (k n : ℕ) :
    (addLeadingZeros k n).all isDigitCh = true := by
  simp only [addLeadingZeros, List.all_append, Bool.and_eq_true]
  constructor
  · simp only [List.all_eq_true]
    intro c hc
    rw [List.eq_of_mem_replicate hc]
    decide
  · exact natChars_all_digits n

/-- Leading zeros do not change the value. -/
theorem valOf_addLeadingZeros (k n : ℕ) :
    valOfDigits (addLeadingZeros k n) = n := by
  have hz : ∀ z : ℕ, ((List.replicate z '0').foldl
      (fun a c => 10 * a + digitVal c) 0) = 0 := by
    intro z
    induction z with
    | zero => rfl
    | succ z ih => simpa [List.replicate_succ, digitVal] using ih
  simp only [addLeadingZeros, valOfDigits, List.foldl_append, hz]
  exact valOf_natChars n

/-- A greedy bounded digit take consumes exactly a leading digit block
when the block fills the bound or the next character is not a digit. -/
theorem takeDigits_append :
    ∀ (ds : List Char) (k : ℕ) (rest : List Char),
      ds.length ≤ k → ds.all isDigitCh = true →
      (ds.length = k ∨ NonDigitHead rest) →
      takeDigits k (ds ++ rest) = (ds, rest) := by
  intro ds
  induction ds with
  | nil =>
    intro k rest _ _ hstop
    rcases hstop with h | h
    · rw [← h]
      rfl
    · cases k with
      | zero => rfl
      | succ k =>
        cases rest with
        | nil => rfl
        | cons c cs =>
          simp only [NonDigitHead] at h
          simp [takeDigits, h]
  | cons c ds ih =>
    intro k rest hlen hdig hstop
    cases k with
    | zero => simp at hlen
    | succ k =>
      simp only [List.all_cons, Bool.and_eq_true] at hdig
      have hrec := ih k rest (by simpa using hlen) hdig.2
        (by rcases hstop with h | h
            · exact Or.inl (by simpa using h)
            · exact Or.inr h)
      simp [takeDigits, hdig.1, hrec]

/-- `parseNDigits` on a leading digit block: value and leftover. -/
theorem parseNDigits_block (ds : List Char) (k : ℕ) (rest : List Char)
    (hne : ds ≠ []) (hlen : ds.length ≤ k) (hdig : ds.all isDigitCh = true)
    (hstop : ds.length = k ∨ NonDigitHead rest) :
    parseNDigits k (ds ++ rest) = some (((valOfDigits ds : ℕ) : ℤ), rest) := by
  unfold parseNDigits
  rw [takeDigits_append ds k rest hlen hdig hstop]
  cases ds with
  | nil => exact absurd rfl hne
  | cons c cs => rfl

/-- Zero-padded numbers are consumed whole by `parseNDigits`, whatever
follows. -/
theorem parseNDigits_pad_all (k n : ℕ) (hn : n < 10 ^ k) (hk : 1 ≤ k)
    (rest : List Char) :
    parseNDigits k (addLeadingZeros k n ++ rest) = some (((n : ℕ) : ℤ), rest) := by
  have h := parseNDigits_block (addLeadingZeros k n) k rest
    (by have := addLeadingZeros_length k n hn hk
        intro hcon
        rw [hcon] at this
        simp at this
        omega)
    (le_of_eq (addLeadingZeros_length k n hn hk))
    (addLeadingZeros_all_digits k n)
    (Or.inl (addLeadingZeros_length k n hn hk))
  rwa [valOf_addLeadingZeros] at h

/-- Unpadded numbers are consumed whole by `parseNDigits` when nothing
digit-like follows. -/
theorem parseNDigits_natChars_all (k n : ℕ) (hn : n < 10 ^ k) (hk : 1 ≤ k)
    (rest : List Char) (hrest : NonDigitHead rest) :
    parseNDigits k (natChars n ++ rest) = some (((n : ℕ) : ℤ), rest) := by
  have h := parseNDigits_block (natChars n) k rest (natChars_ne_nil n)
    (natChars_length_le k n hn hk) (natChars_all_digits n) (Or.inr hrest)
  rwa [valOf_natChars] at h

/-- The day-of-month regex takes a single digit when nothing digit-like
follows. -/
theorem parseDatePat_single_nondigit (c : Char) (hc : isDigitCh c = true)
    (rest : List Char) (hrest : NonDigitHead rest) :
    parseDatePat (c :: rest) = some ((digitVal c : ℤ), rest) := by
  by_cases h3 : c = '3'
  · subst h3
    cases rest with
    | nil => rfl
    | cons c2 cs2 =>
      simp only [NonDigitHead] at hrest
      have h0 : ¬ (c2 = '0' ∨ c2 = '1') := by
        rintro (rfl | rfl) <;> simp [isDigitCh] at hrest
      simp [parseDatePat, h0]
      decide
  · by_cases h02 : '0' ≤ c ∧ c ≤ '2'
    · cases rest with
      | nil => simp [parseDatePat, h3, h02]
      | cons c2 cs2 =>
        simp only [NonDigitHead] at hrest
        simp [parseDatePat, h3, h02, hrest]
    · simp [parseDatePat, h3, h02, hc]

/-- The day-of-month regex consumes a zero-padded day whole. -/
theorem parseDatePat_pad2 (n : ℕ) (h1 : 1 ≤ n) (h2 : n ≤ 31)
    (rest : List Char) :
    parseDatePat (addLeadingZeros 2 n ++ rest) = some (((n : ℕ) : ℤ), rest) := by
  interval_cases n <;> rfl

/-- The day-of-month regex consumes an unpadded day whole when nothing
digit-like follows. -/
theorem parseDatePat_natChars (n : ℕ) (h1 : 1 ≤ n) (h2 : n ≤ 31)
    (rest : List Char) (hrest : NonDigitHead rest) :
    parseDatePat (natChars n ++ rest) = some (((n : ℕ) : ℤ), rest) := by
  interval_cases n <;>
    first
      | rfl
      | exact parseDatePat_single_nondigit _ (by decide) rest hrest

/-- A four-wide zero pad is four digit characters. -/
theorem pad4_decomp (n : ℕ) (h : n < 10000) :
    ∃ a b c e : Char, addLeadingZeros 4 n = [a, b, c, e] ∧
      isDigitCh a = true ∧ isDigitCh b = true ∧ isDigitCh c = true ∧
      isDigitCh e = true := by
  have hn4 : n < 10 ^ 4 := by
    calc n < 10000 := h
    _ = 10 ^ 4 := by norm_num
  have hlen : (addLeadingZeros 4 n).length = 4 :=
    addLeadingZeros_length 4 n hn4 (by omega)
  have hdig := addLeadingZeros_all_digits 4 n
  cases h1 : addLeadingZeros 4 n with
  | nil => rw [h1] at hlen; simp at hlen
  | cons a t1 =>
    cases t1 with
    | nil => rw [h1] at hlen; simp at hlen
    | cons b t2 =>
      cases t2 with
      | nil => rw [h1] at hlen; simp at hlen
      | cons c t3 =>
        cases t3 with
        | nil => rw [h1] at hlen; simp at hlen
        | cons e t4 =>
          cases t4 with
          | cons f t5 => rw [h1] at hlen; simp at hlen
          | nil =>
            rw [h1] at hdig
            simp only [List.all_cons, List.all_nil, Bool.and_eq_true,
              and_true] at hdig
            exact ⟨a, b, c, e, rfl, hdig.1, hdig.2.1, hdig.2.2.1, hdig.2.2.2⟩

/-- On three or more leading digits the day-of-month regex always
leaves a digit at the head of the remainder. -/
theorem parseDatePat_leading_digits (a b c : Char) (ha : isDigitCh a = true)
    (hb : isDigitCh b = true) (hc : isDigitCh c = true) (cs : List Char) :
    ∃ (v : ℤ) (e : Char) (es : List Char),
      parseDatePat (a :: b :: c :: cs) = some (v, e :: es) ∧
      isDigitCh e = true := by
  by_cases h3 : a = '3'
  · subst h3
    by_cases h01 : b = '0' ∨ b = '1'
    · exact ⟨30 + (digitVal b : ℤ), c, cs, by simp [parseDatePat, h01], hc⟩
    · exact ⟨3, b, c :: cs, by simp [parseDatePat, h01], hb⟩
  · by_cases h02 : '0' ≤ a ∧ a ≤ '2'
    · refine ⟨10 * (digitVal a : ℤ) + (digitVal b : ℤ), c, cs, ?_, hc⟩
      simp [parseDatePat, h3, h02, hb]
    · refine ⟨(digitVal a : ℤ), b, c :: cs, ?_, hb⟩
      simp [parseDatePat, h3, h02, ha]

/-- Each wide Romanian month name is recognized at the head of any
input, consuming exactly the name: no other name is a prefix of it. -/
theorem parseMonthName_roWide (mv : ℤ) (h1 : 1 ≤ mv) (h2 : mv ≤ 12)
    (rest : List Char) :
    parseMonthName (roWideName mv ++ rest) = some (mv, rest) := by
  interval_cases mv <;> rfl

/-- Distinct characters: a digit never equals a non-digit. -/
theorem digit_ne_nondigit (c s : Char) (h1 : isDigitCh c = true)
    (h2 : isDigitCh s = false) : c ≠ s := by
  intro he
  subst he
  rw [h1] at h2
  exact absurd h2 (by simp)

/-- Months are at most 31 days long. -/
theorem daysInMonth_le31 (y m : ℤ) : daysInMonth y m ≤ 31 := by
  unfold daysInMonth
  split_ifs <;> norm_num

/-- A pattern starting `dd` then a literal fails when the consumed
digits are followed by a different character. -/
theorem parseWithTokens_dd_lit_fail (s : Char) (ts : List FmtTok)
    (cs : List Char) (ref : YMD) (v : ℤ) (c2 : Char) (rest2 : List Char)
    (hp : parseNDigits 2 cs = some (v, c2 :: rest2)) (hne : c2 ≠ s) :
    parseWithTokens (FmtTok.dd :: FmtTok.lit s :: ts) cs ref = none := by
  simp [parseWithTokens, scanTokens, hp, hne]

/-- A pattern starting `d` then a literal fails likewise. -/
theorem parseWithTokens_d_lit_fail (s : Char) (ts : List FmtTok)
    (cs : List Char) (ref : YMD) (v : ℤ) (c2 : Char) (rest2 : List Char)
    (hp : parseDatePat cs = some (v, c2 :: rest2)) (hne : c2 ≠ s) :
    parseWithTokens (FmtTok.d :: FmtTok.lit s :: ts) cs ref = none := by
  simp [parseWithTokens, scanTokens, hp, hne]

/-- A pattern starting `yyyy` then a literal fails likewise. -/
theorem parseWithTokens_yyyy_lit_fail (s : Char) (ts : List FmtTok)
    (cs : List Char) (ref : YMD) (v : ℤ) (c2 : Char) (rest2 : List Char)
    (hp : parseNDigits 4 cs = some (v, c2 :: rest2)) (hne : c2 ≠ s) :
    parseWithTokens (FmtTok.yyyy :: FmtTok.lit s :: ts) cs ref = none := by
  simp [parseWithTokens, scanTokens, hp, hne]

/-- Scan and validation of a day-separator-month-separator-year
pattern over a matching rendered string. -/
theorem parseWithTokens_numeric (s : Char) (hs : isDigitCh s = false)
    (ref : YMD) (dchars mchars ychars : List Char) (dv mv yv : ℤ)
    (hd : ∀ r, NonDigitHead r → parseNDigits 2 (dchars ++ r) = some (dv, r))
    (hm : ∀ r, NonDigitHead r → parseNDigits 2 (mchars ++ r) = some (mv, r))
    (hy : parseNDigits 4 ychars = some (yv, []))
    (h1 : 0 < yv) (h2 : 1 ≤ mv) (h3 : mv ≤ 12) (h4 : 1 ≤ dv)
    (h5 : dv ≤ daysInMonth yv mv) :
    parseWithTokens
      [FmtTok.dd, FmtTok.lit s, FmtTok.MM, FmtTok.lit s, FmtTok.yyyy]
      (dchars ++ s :: (mchars ++ s :: ychars)) ref = some ⟨yv, mv, dv⟩ := by
  have hd2 := hd (s :: (mchars ++ s :: ychars)) (by simp [NonDigitHead, hs])
  have hm2 := hm (s :: ychars) (by simp [NonDigitHead, hs])
  have hscan : scanTokens
      [FmtTok.dd, FmtTok.lit s, FmtTok.MM, FmtTok.lit s, FmtTok.yyyy]
      (dchars ++ s :: (mchars ++ s :: ychars)) ⟨none, none, none⟩ =
      some (⟨some yv, some mv, some dv⟩, []) := by
    simp [scanTokens, hd2, hm2, hy]
  simp [parseWithTokens, hscan, buildDate, h1, h2, h3, h4, h5]

/-- Scan and validation of the day-name-year pattern over a matching
rendered string with a wide Romanian month name. -/
theorem parseWithTokens_ddMMMM (ref : YMD) (dchars ychars : List Char)
    (dv mv yv : ℤ) (hm1 : 1 ≤ mv) (hm2 : mv ≤ 12)
    (hd : ∀ r, NonDigitHead r → parseNDigits 2 (dchars ++ r) = some (dv, r))
    (hy : parseNDigits 4 ychars = some (yv, []))
    (h1 : 0 < yv) (h4 : 1 ≤ dv) (h5 : dv ≤ daysInMonth yv mv) :
    parseWithTokens
      [FmtTok.dd, FmtTok.lit ' ', FmtTok.MMMM, FmtTok.lit ' ', FmtTok.yyyy]
      (dchars ++ ' ' :: (roWideName mv ++ ' ' :: ychars)) ref =
      some ⟨yv, mv, dv⟩ := by
  have hd2 := hd (' ' :: (roWideName mv ++ ' ' :: ychars))
    (by simp [NonDigitHead, isDigitCh])
  have hmn := parseMonthName_roWide mv hm1 hm2 (' ' :: ychars)
  have hscan : scanTokens
      [FmtTok.dd, FmtTok.lit ' ', FmtTok.MMMM, FmtTok.lit ' ', FmtTok.yyyy]
      (dchars ++ ' ' :: (roWideName mv ++ ' ' :: ychars)) ⟨none, none, none⟩ =
      some (⟨some yv, some mv, some dv⟩, []) := by
    simp [scanTokens, hd2, hmn, hy]
  simp [parseWithTokens, hscan, buildDate, h1, hm1, hm2, h4, h5]

/-- Scan and validation of a year-separator-month-separator-day
pattern over a matching rendered string. -/
theorem parseWithTokens_ymd (s : Char) (hs : isDigitCh s = false)
    (ref : YMD) (ychars mchars dchars : List Char) (yv mv dv : ℤ)
    (hy : ∀ r, parseNDigits 4 (ychars ++ r) = some (yv, r))
    (hm : ∀ r, NonDigitHead r → parseNDigits 2 (mchars ++ r) = some (mv, r))
    (hd : parseNDigits 2 dchars = some (dv, []))
    (h1 : 0 < yv) (h2 : 1 ≤ mv) (h3 : mv ≤ 12) (h4 : 1 ≤ dv)
    (h5 : dv ≤ daysInMonth yv mv) :
    parseWithTokens
      [FmtTok.yyyy, FmtTok.lit s, FmtTok.MM, FmtTok.lit s, FmtTok.dd]
      (ychars ++ s :: (mchars ++ s :: dchars)) ref = some ⟨yv, mv, dv⟩ := by
  have hy2 := hy (s :: (mchars ++ s :: dchars))
  have hm2 := hm (s :: dchars) (by simp [NonDigitHead, hs])
  have hscan : scanTokens
      [FmtTok.yyyy, FmtTok.lit s, FmtTok.MM, FmtTok.lit s, FmtTok.dd]
      (ychars ++ s :: (mchars ++ s :: dchars)) ⟨none, none, none⟩ =
      some (⟨some yv, some mv, some dv⟩, []) := by
    simp [scanTokens, hy2, hm2, hd]
  simp [parseWithTokens, hscan, buildDate, h1, h2, h3, h4, h5]

/-- C4 (amended): for every pattern of `DATE_FORMATS` and every valid
calendar date whose year has at most four digits, rendering the date
with that pattern and running the result through the flexible parser
returns the original date, whatever reference date the parse calls
receive.  No earlier pattern ever produces a false match on a rendered
string: an earlier pattern either fails (on a separator or because a
digit follows where a literal is expected) or parses to the same date
(the zero-padded and unpadded digit patterns accept the same strings).
Years above 9999 are excluded: `yyyy` consumes at most four digits, so
their rendering does not parse at all. -/
theorem format_parse_roundtrip :
    ∀ fmt ∈ DATE_FORMATS, ∀ (y m d : ℤ), ValidDate y m d → y ≤ 9999 →
      ∀ ref : YMD,
        parseFlexibleDate (formatWithPattern fmt ⟨y, m, d⟩) ref =
          some ⟨y, m, d⟩ := by
  intro fmt hf y m d hv hy9 ref
  obtain ⟨hy1, hm1, hm2, hd1, hd5⟩ := hv
  have hd31 : d ≤ 31 := le_trans hd5 (daysInMonth_le31 y m)
  have hdn100 : d.toNat < 10 ^ 2 := by norm_num; omega
  have hmn100 : m.toNat < 10 ^ 2 := by norm_num; omega
  have hyn : y.toNat < 10 ^ 4 := by norm_num; omega
  have hcd : ((d.toNat : ℕ) : ℤ) = d := by omega
  have hcm : ((m.toNat : ℕ) : ℤ) = m := by omega
  have hcy : ((y.toNat : ℕ) : ℤ) = y := by omega
  have hyd : yearDisplay y = y.toNat := by
    unfold yearDisplay
    rw [if_pos (by omega)]
  have hDpad : ∀ r, NonDigitHead r →
      parseNDigits 2 (addLeadingZeros 2 d.toNat ++ r) = some (d, r) := by
    intro r _
    rw [← hcd]
    exact parseNDigits_pad_all 2 d.toNat hdn100 (by omega) r
  have hMpad : ∀ r, NonDigitHead r →
      parseNDigits 2 (addLeadingZeros 2 m.toNat ++ r) = some (m, r) := by
    intro r _
    rw [← hcm]
    exact parseNDigits_pad_all 2 m.toNat hmn100 (by omega) r
  have hDun : ∀ r, NonDigitHead r →
      parseNDigits 2 (natChars d.toNat ++ r) = some (d, r) := by
    intro r hr
    rw [← hcd]
    exact parseNDigits_natChars_all 2 d.toNat hdn100 (by omega) r hr
  have hMun : ∀ r, NonDigitHead r →
      parseNDigits 2 (natChars m.toNat ++ r) = some (m, r) := by
    intro r hr
    rw [← hcm]
    exact parseNDigits_natChars_all 2 m.toNat hmn100 (by omega) r hr
  have hdDpad : ∀ r, NonDigitHead r →
      parseDatePat (addLeadingZeros 2 d.toNat ++ r) = some (d, r) := by
    intro r _
    rw [← hcd]
    exact parseDatePat_pad2 d.toNat (by omega) (by omega) r
  have hdDun : ∀ r, NonDigitHead r →
      parseDatePat (natChars d.toNat ++ r) = some (d, r) := by
    intro r hr
    rw [← hcd]
    exact parseDatePat_natChars d.toNat (by omega) (by omega) r hr
  have hDnil : parseNDigits 2 (addLeadingZeros 2 d.toNat) = some (d, []) := by
    have h := hDpad [] trivial
    rwa [List.append_nil] at h
  have hYpad : ∀ r, parseNDigits 4 (addLeadingZeros 4 (yearDisplay y) ++ r) =
      some (y, r) := by
    intro r
    rw [hyd, ← hcy]
    exact parseNDigits_pad_all 4 y.toNat hyn (by omega) r
  have hYnil : parseNDigits 4 (addLeadingZeros 4 (yearDisplay y)) =
      some (y, []) := by
    have h := hYpad []
    rwa [List.append_nil] at h
  have hy0 : (0 : ℤ) < y := by omega
  simp only [DATE_FORMATS, List.mem_cons, List.not_mem_nil, or_false] at hf
  rcases hf with rfl | rfl | rfl | rfl | rfl | rfl | rfl | rfl | rfl | rfl
  · -- "dd.MM.yyyy"
    have hstr : formatWithPattern "dd.MM.yyyy" ⟨y, m, d⟩ =
        String.mk (addLeadingZeros 2 d.toNat ++ '.' ::
          (addLeadingZeros 2 m.toNat ++ '.' :: addLeadingZeros 4 (yearDisplay y))) := by
      rw [show formatWithPattern "dd.MM.yyyy" ⟨y, m, d⟩ = String.mk (formatToks
        [FmtTok.dd, FmtTok.lit '.', FmtTok.MM, FmtTok.lit '.', FmtTok.yyyy]
        ⟨y, m, d⟩) from rfl]
      simp [formatToks, formatTok]
    rw [hstr]
    show parseFirst DATE_FORMATS
      (addLeadingZeros 2 d.toNat ++ '.' ::
        (addLeadingZeros 2 m.toNat ++ '.' :: addLeadingZeros 4 (yearDisplay y)))
      ref = some ⟨y, m, d⟩
    refine parseFirst_first_success DATE_FORMATS _ ref 0 "dd.MM.yyyy" ⟨y, m, d⟩
      rfl ?_ ?_
    · exact parseWithTokens_numeric '.' rfl ref _ _ _ d m y hDpad hMpad hYnil
        hy0 hm1 hm2 hd1 hd5
    · intro j hj fmt2 hg
      omega
  · -- "dd-MM-yyyy"
    have hstr : formatWithPattern "dd-MM-yyyy" ⟨y, m, d⟩ =
        String.mk (addLeadingZeros 2 d.toNat ++ '-' ::
          (addLeadingZeros 2 m.toNat ++ '-' :: addLeadingZeros 4 (yearDisplay y))) := by
      rw [show formatWithPattern "dd-MM-yyyy" ⟨y, m, d⟩ = String.mk (formatToks
        [FmtTok.dd, FmtTok.lit '-', FmtTok.MM, FmtTok.lit '-', FmtTok.yyyy]
        ⟨y, m, d⟩) from rfl]
      simp [formatToks, formatTok]
    rw [hstr]
    show parseFirst DATE_FORMATS
      (addLeadingZeros 2 d.toNat ++ '-' ::
        (addLeadingZeros 2 m.toNat ++ '-' :: addLeadingZeros 4 (yearDisplay y)))
      ref = some ⟨y, m, d⟩
    refine parseFirst_first_success DATE_FORMATS _ ref 1 "dd-MM-yyyy" ⟨y, m, d⟩
      rfl ?_ ?_
    · exact parseWithTokens_numeric '-' rfl ref _ _ _ d m y hDpad hMpad hYnil
        hy0 hm1 hm2 hd1 hd5
    · intro j hj fmt2 hg
      interval_cases j
      · rw [show DATE_FORMATS[0]? = some "dd.MM.yyyy" from rfl] at hg
        cases hg
        exact parseWithTokens_dd_lit_fail '.' _ _ ref _ '-' _
          (hDpad ('-' :: (addLeadingZeros 2 m.toNat ++ '-' ::
            addLeadingZeros 4 (yearDisplay y))) rfl) (by decide)
  · -- "dd/MM/yyyy"
    have hstr : formatWithPattern "dd/MM/yyyy" ⟨y, m, d⟩ =
        String.mk (addLeadingZeros 2 d.toNat ++ '/' ::
          (addLeadingZeros 2 m.toNat ++ '/' :: addLeadingZeros 4 (yearDisplay y))) := by
      rw [show formatWithPattern "dd/MM/yyyy" ⟨y, m, d⟩ = String.mk (formatToks
        [FmtTok.dd, FmtTok.lit '/', FmtTok.MM, FmtTok.lit '/', FmtTok.yyyy]
        ⟨y, m, d⟩) from rfl]
      simp [formatToks, formatTok]
    rw [hstr]
    show parseFirst DATE_FORMATS
      (addLeadingZeros 2 d.toNat ++ '/' ::
        (addLeadingZeros 2 m.toNat ++ '/' :: addLeadingZeros 4 (yearDisplay y)))
      ref = some ⟨y, m, d⟩
    refine parseFirst_first_success DATE_FORMATS _ ref 2 "dd/MM/yyyy" ⟨y, m, d⟩
      rfl ?_ ?_
    · exact parseWithTokens_numeric '/' rfl ref _ _ _ d m y hDpad hMpad hYnil
        hy0 hm1 hm2 hd1 hd5
    · intro j hj fmt2 hg
      interval_cases j
      · rw [show DATE_FORMATS[0]? = some "dd.MM.yyyy" from rfl] at hg
        cases hg
        exact parseWithTokens_dd_lit_fail '.' _ _ ref _ '/' _
          (hDpad ('/' :: (addLeadingZeros 2 m.toNat ++ '/' ::
            addLeadingZeros 4 (yearDisplay y))) rfl) (by decide)
      · rw [show DATE_FORMATS[1]? = some "dd-MM-yyyy" from rfl] at hg
        cases hg
        exact parseWithTokens_dd_lit_fail '-' _ _ ref _ '/' _
          (hDpad ('/' :: (addLeadingZeros 2 m.toNat ++ '/' ::
            addLeadingZeros 4 (yearDisplay y))) rfl) (by decide)
  · -- "d.M.yyyy": the first pattern already matches, with the same date
    have hstr : formatWithPattern "d.M.yyyy" ⟨y, m, d⟩ =
        String.mk (natChars d.toNat ++ '.' ::
          (natChars m.toNat ++ '.' :: addLeadingZeros 4 (yearDisplay y))) := by
      rw [show formatWithPattern "d.M.yyyy" ⟨y, m, d⟩ = String.mk (formatToks
        [FmtTok.d, FmtTok.lit '.', FmtTok.M, FmtTok.lit '.', FmtTok.yyyy]
        ⟨y, m, d⟩) from rfl]
      simp [formatToks, formatTok]
    rw [hstr]
    show parseFirst DATE_FORMATS
      (natChars d.toNat ++ '.' ::
        (natChars m.toNat ++ '.' :: addLeadingZeros 4 (yearDisplay y)))
      ref = some ⟨y, m, d⟩
    refine parseFirst_first_success DATE_FORMATS _ ref 0 "dd.MM.yyyy" ⟨y, m, d⟩
      rfl ?_ ?_
    · exact parseWithTokens_numeric '.' rfl ref _ _ _ d m y hDun hMun hYnil
        hy0 hm1 hm2 hd1 hd5
    · intro j hj fmt2 hg
      omega
  · -- "d-M-yyyy": the second pattern matches first, with the same date
    have hstr : formatWithPattern "d-M-yyyy" ⟨y, m, d⟩ =
        String.mk (natChars d.toNat ++ '-' ::
          (natChars m.toNat ++ '-' :: addLeadingZeros 4 (yearDisplay y))) := by
      rw [show formatWithPattern "d-M-yyyy" ⟨y, m, d⟩ = String.mk (formatToks
        [FmtTok.d, FmtTok.lit '-', FmtTok.M, FmtTok.lit '-', FmtTok.yyyy]
        ⟨y, m, d⟩) from rfl]
      simp [formatToks, formatTok]
    rw [hstr]
    show parseFirst DATE_FORMATS
      (natChars d.toNat ++ '-' ::
        (natChars m.toNat ++ '-' :: addLeadingZeros 4 (yearDisplay y)))
      ref = some ⟨y, m, d⟩
    refine parseFirst_first_success DATE_FORMATS _ ref 1 "dd-MM-yyyy" ⟨y, m, d⟩
      rfl ?_ ?_
    · exact parseWithTokens_numeric '-' rfl ref _ _ _ d m y hDun hMun hYnil
        hy0 hm1 hm2 hd1 hd5
    · intro j hj fmt2 hg
      interval_cases j
      · rw [show DATE_FORMATS[0]? = some "dd.MM.yyyy" from rfl] at hg
        cases hg
        exact parseWithTokens_dd_lit_fail '.' _ _ ref _ '-' _
          (hDun ('-' :: (natChars m.toNat ++ '-' ::
            addLeadingZeros 4 (yearDisplay y))) rfl) (by decide)
  · -- "d/M/yyyy": the third pattern matches first, with the same date
    have hstr : formatWithPattern "d/M/yyyy" ⟨y, m, d⟩ =
        String.mk (natChars d.toNat ++ '/' ::
          (natChars m.toNat ++ '/' :: addLeadingZeros 4 (yearDisplay y))) := by
      rw [show formatWithPattern "d/M/yyyy" ⟨y, m, d⟩ = String.mk (formatToks
        [FmtTok.d, FmtTok.lit '/', FmtTok.M, FmtTok.lit '/', FmtTok.yyyy]
        ⟨y, m, d⟩) from rfl]
      simp [formatToks, formatTok]
    rw [hstr]
    show parseFirst DATE_FORMATS
      (natChars d.toNat ++ '/' ::
        (natChars m.toNat ++ '/' :: addLeadingZeros 4 (yearDisplay y)))
      ref = some ⟨y, m, d⟩
    refine parseFirst_first_success DATE_FORMATS _ ref 2 "dd/MM/yyyy" ⟨y, m, d⟩
      rfl ?_ ?_
    · exact parseWithTokens_numeric '/' rfl ref _ _ _ d m y hDun hMun hYnil
        hy0 hm1 hm2 hd1 hd5
    · intro j hj fmt2 hg
      interval_cases j
      · rw [show DATE_FORMATS[0]? = some "dd.MM.yyyy" from rfl] at hg
        cases hg
        exact parseWithTokens_dd_lit_fail '.' _ _ ref _ '/' _
          (hDun ('/' :: (natChars m.toNat ++ '/' ::
            addLeadingZeros 4 (yearDisplay y))) rfl) (by decide)
      · rw [show DATE_FORMATS[1]? = some "dd-MM-yyyy" from rfl] at hg
        cases hg
        exact parseWithTokens_dd_lit_fail '-' _ _ ref _ '/' _
          (hDun ('/' :: (natChars m.toNat ++ '/' ::
            addLeadingZeros 4 (yearDisplay y))) rfl) (by decide)
  · -- "dd MMMM yyyy"
    have hstr : formatWithPattern "dd MMMM yyyy" ⟨y, m, d⟩ =
        String.mk (addLeadingZeros 2 d.toNat ++ ' ' ::
          (roWideName m ++ ' ' :: addLeadingZeros 4 (yearDisplay y))) := by
      rw [show formatWithPattern "dd MMMM yyyy" ⟨y, m, d⟩ = String.mk (formatToks
        [FmtTok.dd, FmtTok.lit ' ', FmtTok.MMMM, FmtTok.lit ' ', FmtTok.yyyy]
        ⟨y, m, d⟩) from rfl]
      simp [formatToks, formatTok]
    rw [hstr]
    show parseFirst DATE_FORMATS
      (addLeadingZeros 2 d.toNat ++ ' ' ::
        (roWideName m ++ ' ' :: addLeadingZeros 4 (yearDisplay y)))
      ref = some ⟨y, m, d⟩
    refine parseFirst_first_success DATE_FORMATS _ ref 6 "dd MMMM yyyy" ⟨y, m, d⟩
      rfl ?_ ?_
    · exact parseWithTokens_ddMMMM ref _ _ d m y hm1 hm2 hDpad hYnil hy0 hd1 hd5
    · intro j hj fmt2 hg
      interval_cases j
      · rw [show DATE_FORMATS[0]? = some "dd.MM.yyyy" from rfl] at hg
        cases hg
        exact parseWithTokens_dd_lit_fail '.' _ _ ref _ ' ' _
          (hDpad (' ' :: (roWideName m ++ ' ' ::
            addLeadingZeros 4 (yearDisplay y))) rfl) (by decide)
      · rw [show DATE_FORMATS[1]? = some "dd-MM-yyyy" from rfl] at hg
        cases hg
        exact parseWithTokens_dd_lit_fail '-' _ _ ref _ ' ' _
          (hDpad (' ' :: (roWideName m ++ ' ' ::
            addLeadingZeros 4 (yearDisplay y))) rfl) (by decide)
      · rw [show DATE_FORMATS[2]? = some "dd/MM/yyyy" from rfl] at hg
        cases hg
        exact parseWithTokens_dd_lit_fail '/' _ _ ref _ ' ' _
          (hDpad (' ' :: (roWideName m ++ ' ' ::
            addLeadingZeros 4 (yearDisplay y))) rfl) (by decide)
      · rw [show DATE_FORMATS[3]? = some "d.M.yyyy" from rfl] at hg
        cases hg
        exact parseWithTokens_d_lit_fail '.' _ _ ref _ ' ' _
          (hdDpad (' ' :: (roWideName m ++ ' ' ::
            addLeadingZeros 4 (yearDisplay y))) rfl) (by decide)
      · rw [show DATE_FORMATS[4]? = some "d-M-yyyy" from rfl] at hg
        cases hg
        exact parseWithTokens_d_lit_fail '-' _ _ ref _ ' ' _
          (hdDpad (' ' :: (roWideName m ++ ' ' ::
            addLeadingZeros 4 (yearDisplay y))) rfl) (by decide)
      · rw [show DATE_FORMATS[5]? = some "d/M/yyyy" from rfl] at hg
        cases hg
        exact parseWithTokens_d_lit_fail '/' _ _ ref _ ' ' _
          (hdDpad (' ' :: (roWideName m ++ ' ' ::
            addLeadingZeros 4 (yearDisplay y))) rfl) (by decide)
  · -- "d MMMM yyyy": pattern 7 (index 6) matches first, with the same date
    have hstr : formatWithPattern "d MMMM yyyy" ⟨y, m, d⟩ =
        String.mk (natChars d.toNat ++ ' ' ::
          (roWideName m ++ ' ' :: addLeadingZeros 4 (yearDisplay y))) := by
      rw [show formatWithPattern "d MMMM yyyy" ⟨y, m, d⟩ = String.mk (formatToks
        [FmtTok.d, FmtTok.lit ' ', FmtTok.MMMM, FmtTok.lit ' ', FmtTok.yyyy]
        ⟨y, m, d⟩) from rfl]
      simp [formatToks, formatTok]
    rw [hstr]
    show parseFirst DATE_FORMATS
      (natChars d.toNat ++ ' ' ::
        (roWideName m ++ ' ' :: addLeadingZeros 4 (yearDisplay y)))
      ref = some ⟨y, m, d⟩
    refine parseFirst_first_success DATE_FORMATS _ ref 6 "dd MMMM yyyy" ⟨y, m, d⟩
      rfl ?_ ?_
    · exact parseWithTokens_ddMMMM ref _ _ d m y hm1 hm2 hDun hYnil hy0 hd1 hd5
    · intro j hj fmt2 hg
      interval_cases j
      · rw [show DATE_FORMATS[0]? = some "dd.MM.yyyy" from rfl] at hg
        cases hg
        exact parseWithTokens_dd_lit_fail '.' _ _ ref _ ' ' _
          (hDun (' ' :: (roWideName m ++ ' ' ::
            addLeadingZeros 4 (yearDisplay y))) rfl) (by decide)
      · rw [show DATE_FORMATS[1]? = some "dd-MM-yyyy" from rfl] at hg
        cases hg
        exact parseWithTokens_dd_lit_fail '-' _ _ ref _ ' ' _
          (hDun (' ' :: (roWideName m ++ ' ' ::
            addLeadingZeros 4 (yearDisplay y))) rfl) (by decide)
      · rw [show DATE_FORMATS[2]? = some "dd/MM/yyyy" from rfl] at hg
        cases hg
        exact parseWithTokens_dd_lit_fail '/' _ _ ref _ ' ' _
          (hDun (' ' :: (roWideName m ++ ' ' ::
            addLeadingZeros 4 (yearDisplay y))) rfl) (by decide)
      · rw [show DATE_FORMATS[3]? = some "d.M.yyyy" from rfl] at hg
        cases hg
        exact parseWithTokens_d_lit_fail '.' _ _ ref _ ' ' _
          (hdDun (' ' :: (roWideName m ++ ' ' ::
            addLeadingZeros 4 (yearDisplay y))) rfl) (by decide)
      · rw [show DATE_FORMATS[4]? = some "d-M-yyyy" from rfl] at hg
        cases hg
        exact parseWithTokens_d_lit_fail '-' _ _ ref _ ' ' _
          (hdDun (' ' :: (roWideName m ++ ' ' ::
            addLeadingZeros 4 (yearDisplay y))) rfl) (by decide)
      · rw [show DATE_FORMATS[5]? = some "d/M/yyyy" from rfl] at hg
        cases hg
        exact parseWithTokens_d_lit_fail '/' _ _ ref _ ' ' _
          (hdDun (' ' :: (roWideName m ++ ' ' ::
            addLeadingZeros 4 (yearDisplay y))) rfl) (by decide)
  · -- "yyyy-MM-dd"
    obtain ⟨a, b, c, e, heq, ha, hb, hc, he⟩ :=
      pad4_decomp (yearDisplay y) (by omega)
    have hp2 : ∀ r0 : List Char,
        parseNDigits 2 (addLeadingZeros 4 (yearDisplay y) ++ r0) =
        some (((valOfDigits [a, b] : ℕ) : ℤ), c :: e :: r0) := by
      intro r0
      rw [heq]
      exact parseNDigits_block [a, b] 2 (c :: e :: r0) (by simp) (by simp)
        (by simp [ha, hb]) (Or.inl rfl)
    have hp3 : ∀ r0 : List Char, ∃ (v2 : ℤ) (e2 : Char) (es2 : List Char),
        parseDatePat (addLeadingZeros 4 (yearDisplay y) ++ r0) =
          some (v2, e2 :: es2) ∧ isDigitCh e2 = true := by
      intro r0
      rw [heq]
      exact parseDatePat_leading_digits a b c ha hb hc (e :: r0)
    have hstr : formatWithPattern "yyyy-MM-dd" ⟨y, m, d⟩ =
        String.mk (addLeadingZeros 4 (yearDisplay y) ++ '-' ::
          (addLeadingZeros 2 m.toNat ++ '-' :: addLeadingZeros 2 d.toNat)) := by
      rw [show formatWithPattern "yyyy-MM-dd" ⟨y, m, d⟩ = String.mk (formatToks
        [FmtTok.yyyy, FmtTok.lit '-', FmtTok.MM, FmtTok.lit '-', FmtTok.dd]
        ⟨y, m, d⟩) from rfl]
      simp [formatToks, formatTok]
    rw [hstr]
    obtain ⟨v2, e2, es2, hpd, hde2⟩ :=
      hp3 ('-' :: (addLeadingZeros 2 m.toNat ++ '-' :: addLeadingZeros 2 d.toNat))
    have hp2i := hp2
      ('-' :: (addLeadingZeros 2 m.toNat ++ '-' :: addLeadingZeros 2 d.toNat))
    show parseFirst DATE_FORMATS
      (addLeadingZeros 4 (yearDisplay y) ++ '-' ::
        (addLeadingZeros 2 m.toNat ++ '-' :: addLeadingZeros 2 d.toNat))
      ref = some ⟨y, m, d⟩
    refine parseFirst_first_success DATE_FORMATS _ ref 8 "yyyy-MM-dd" ⟨y, m, d⟩
      rfl ?_ ?_
    · exact parseWithTokens_ymd '-' rfl ref _ _ _ y m d hYpad hMpad hDnil
        hy0 hm1 hm2 hd1 hd5
    · intro j hj fmt2 hg
      interval_cases j
      · rw [show DATE_FORMATS[0]? = some "dd.MM.yyyy" from rfl] at hg
        cases hg
        exact parseWithTokens_dd_lit_fail '.' _ _ ref _ c _ hp2i
          (digit_ne_nondigit c '.' hc (by decide))
      · rw [show DATE_FORMATS[1]? = some "dd-MM-yyyy" from rfl] at hg
        cases hg
        exact parseWithTokens_dd_lit_fail '-' _ _ ref _ c _ hp2i
          (digit_ne_nondigit c '-' hc (by decide))
      · rw [show DATE_FORMATS[2]? = some "dd/MM/yyyy" from rfl] at hg
        cases hg
        exact parseWithTokens_dd_lit_fail '/' _ _ ref _ c _ hp2i
          (digit_ne_nondigit c '/' hc (by decide))
      · rw [show DATE_FORMATS[3]? = some "d.M.yyyy" from rfl] at hg
        cases hg
        exact parseWithTokens_d_lit_fail '.' _ _ ref v2 e2 es2 hpd
          (digit_ne_nondigit e2 '.' hde2 (by decide))
      · rw [show DATE_FORMATS[4]? = some "d-M-yyyy" from rfl] at hg
        cases hg
        exact parseWithTokens_d_lit_fail '-' _ _ ref v2 e2 es2 hpd
          (digit_ne_nondigit e2 '-' hde2 (by decide))
      · rw [show DATE_FORMATS[5]? = some "d/M/yyyy" from rfl] at hg
        cases hg
        exact parseWithTokens_d_lit_fail '/' _ _ ref v2 e2 es2 hpd
          (digit_ne_nondigit e2 '/' hde2 (by decide))
      · rw [show DATE_FORMATS[6]? = some "dd MMMM yyyy" from rfl] at hg
        cases hg
        exact parseWithTokens_dd_lit_fail ' ' _ _ ref _ c _ hp2i
          (digit_ne_nondigit c ' ' hc (by decide))
      · rw [show DATE_FORMATS[7]? = some "d MMMM yyyy" from rfl] at hg
        cases hg
        exact parseWithTokens_d_lit_fail ' ' _ _ ref v2 e2 es2 hpd
          (digit_ne_nondigit e2 ' ' hde2 (by decide))
  · -- "yyyy/MM/dd"
    obtain ⟨a, b, c, e, heq, ha, hb, hc, he⟩ :=
      pad4_decomp (yearDisplay y) (by omega)
    have hp2 : ∀ r0 : List Char,
        parseNDigits 2 (addLeadingZeros 4 (yearDisplay y) ++ r0) =
        some (((valOfDigits [a, b] : ℕ) : ℤ), c :: e :: r0) := by
      intro r0
      rw [heq]
      exact parseNDigits_block [a, b] 2 (c :: e :: r0) (by simp) (by simp)
        (by simp [ha, hb]) (Or.inl rfl)
    have hp3 : ∀ r0 : List Char, ∃ (v2 : ℤ) (e2 : Char) (es2 : List Char),
        parseDatePat (addLeadingZeros 4 (yearDisplay y) ++ r0) =
          some (v2, e2 :: es2) ∧ isDigitCh e2 = true := by
      intro r0
      rw [heq]
      exact parseDatePat_leading_digits a b c ha hb hc (e :: r0)
    have hstr : formatWithPattern "yyyy/MM/dd" ⟨y, m, d⟩ =
        String.mk (addLeadingZeros 4 (yearDisplay y) ++ '/' ::
          (addLeadingZeros 2 m.toNat ++ '/' :: addLeadingZeros 2 d.toNat)) := by
      rw [show formatWithPattern "yyyy/MM/dd" ⟨y, m, d⟩ = String.mk (formatToks
        [FmtTok.yyyy, FmtTok.lit '/', FmtTok.MM, FmtTok.lit '/', FmtTok.dd]
        ⟨y, m, d⟩) from rfl]
      simp [formatToks, formatTok]
    rw [hstr]
    obtain ⟨v2, e2, es2, hpd, hde2⟩ :=
      hp3 ('/' :: (addLeadingZeros 2 m.toNat ++ '/' :: addLeadingZeros 2 d.toNat))
    have hp2i := hp2
      ('/' :: (addLeadingZeros 2 m.toNat ++ '/' :: addLeadingZeros 2 d.toNat))
    show parseFirst DATE_FORMATS
      (addLeadingZeros 4 (yearDisplay y) ++ '/' ::
        (addLeadingZeros 2 m.toNat ++ '/' :: addLeadingZeros 2 d.toNat))
      ref = some ⟨y, m, d⟩
    refine parseFirst_first_success DATE_FORMATS _ ref 9 "yyyy/MM/dd" ⟨y, m, d⟩
      rfl ?_ ?_
    · exact parseWithTokens_ymd '/' rfl ref _ _ _ y m d hYpad hMpad hDnil
        hy0 hm1 hm2 hd1 hd5
    · intro j hj fmt2 hg
      interval_cases j
      · rw [show DATE_FORMATS[0]? = some "dd.MM.yyyy" from rfl] at hg
        cases hg
        exact parseWithTokens_dd_lit_fail '.' _ _ ref _ c _ hp2i
          (digit_ne_nondigit c '.' hc (by decide))
      · rw [show DATE_FORMATS[1]? = some "dd-MM-yyyy" from rfl] at hg
        cases hg
        exact parseWithTokens_dd_lit_fail '-' _ _ ref _ c _ hp2i
          (digit_ne_nondigit c '-' hc (by decide))
      · rw [show DATE_FORMATS[2]? = some "dd/MM/yyyy" from rfl] at hg
        cases hg
        exact parseWithTokens_dd_lit_fail '/' _ _ ref _ c _ hp2i
          (digit_ne_nondigit c '/' hc (by decide))
      · rw [show DATE_FORMATS[3]? = some "d.M.yyyy" from rfl] at hg
        cases hg
        exact parseWithTokens_d_lit_fail '.' _ _ ref v2 e2 es2 hpd
          (digit_ne_nondigit e2 '.' hde2 (by decide))
      · rw [show DATE_FORMATS[4]? = some "d-M-yyyy" from rfl] at hg
        cases hg
        exact parseWithTokens_d_lit_fail '-' _ _ ref v2 e2 es2 hpd
          (digit_ne_nondigit e2 '-' hde2 (by decide))
      · rw [show DATE_FORMATS[5]? = some "d/M/yyyy" from rfl] at hg
        cases hg
        exact parseWithTokens_d_lit_fail '/' _ _ ref v2 e2 es2 hpd
          (digit_ne_nondigit e2 '/' hde2 (by decide))
      · rw [show DATE_FORMATS[6]? = some "dd MMMM yyyy" from rfl] at hg
        cases hg
        exact parseWithTokens_dd_lit_fail ' ' _ _ ref _ c _ hp2i
          (digit_ne_nondigit c ' ' hc (by decide))
      · rw [show DATE_FORMATS[7]? = some "d MMMM yyyy" from rfl] at hg
        cases hg
        exact parseWithTokens_d_lit_fail ' ' _ _ ref v2 e2 es2 hpd
          (digit_ne_nondigit e2 ' ' hde2 (by decide))
      · rw [show DATE_FORMATS[8]? = some "yyyy-MM-dd" from rfl] at hg
        cases hg
        exact parseWithTokens_yyyy_lit_fail '-' _ _ ref y '/' _
          (hYpad ('/' :: (addLeadingZeros 2 m.toNat ++ '/' ::
            addLeadingZeros 2 d.toNat))) (by decide)

/-- C4 counterexample: 15 January 10000 is a valid calendar date, yet
formatting it with the first listed pattern makes "15.01.10000", which
no pattern parses back — `yyyy` consumes at most four digits, the
trailing digit survives, and the leftover check rejects the string (and
no earlier pattern produces any match, false or otherwise).  The
round-trip claim fails for it. -/
theorem roundtrip_fails_year_10000 :
    ValidDate 10000 1 15 ∧
    "dd.MM.yyyy" ∈ DATE_FORMATS ∧
    formatWithPattern "dd.MM.yyyy" ⟨10000, 1, 15⟩ = "15.01.10000" ∧
    parseFlexibleDate (formatWithPattern "dd.MM.yyyy" ⟨10000, 1, 15⟩)
      ⟨2020, 1, 1⟩ = none := by
  refine ⟨by decide, by decide, by decide, by decide⟩

/-- C4 witness: the round-trip theorem applied to 15 March 2023 and
the first pattern. -/
theorem format_parse_roundtrip_witness :
    parseFlexibleDate (formatWithPattern "dd.MM.yyyy" ⟨2023, 3, 15⟩)
      ⟨2020, 1, 1⟩ = some ⟨2023, 3, 15⟩ :=
  format_parse_roundtrip "dd.MM.yyyy" (by decide) 2023 3 15 (by decide)
    (by decide) ⟨2020, 1, 1⟩
